import Mathlib

/-!
Shallow embedding of the swh2save savegame codec (`swh2save/datafile.py` and
`swh2save/savefile.py`), together with proofs of the specified properties.

Buffers are modelled as `List Nat` (one `Nat` per byte), positions as `Nat`
indices into the buffer, and strings as their `latin1` byte lists (the codec
hardcodes `latin1`, under which the byte sequence and the decoded string are in
1:1 correspondence).  Fallible operations return `Except CodecError`.
-/

deriving instance DecidableEq for Except

namespace Swh2save

/-- `StringStorage` enum from `datafile.py`: how the file's strings were stored. -/
inductive StringStorage where
  | compressed
  | expanded
  | unknown
  deriving DecidableEq, Repr

/-- The fatal errors the codec can raise (`RuntimeError` subcases in the source,
plus the distinguished `InMissionSavegameException`). -/
inductive CodecError where
  /-- `RuntimeError('Runaway varint detected ...')` in `Datafile.read_varint`. -/
  | runawayVarint
  /-- `struct.unpack` failure when reading past the end of the buffer. -/
  | eof
  /-- `RuntimeError("String redirect length ... doesn't match cached length ...")`. -/
  | stringRedirectLengthMismatch
  /-- `RuntimeError('Computed string redirect ... not found')`. -/
  | stringRedirectNotFound
  /-- `RuntimeError('Expected chunk header ... but got ...')` in `Chunk.__init__`. -/
  | chunkHeaderMismatch
  /-- The distinguished `InMissionSavegameException` from `savefile.py`. -/
  | inMissionSavegame
  deriving DecidableEq, Repr

/-- `Datafile.read_uint8`: read one byte at `pos`, returning the byte and the
new position.  Reading past the end is a `struct.unpack` error. -/
def read_uint8 (buf : List Nat) (pos : Nat) : Except CodecError (Nat × Nat) :=
  match buf[pos]? with
  | some b => .ok (b, pos + 1)
  | none => .error .eof

/-- `Datafile.read_uint32`: four bytes, little-endian. -/
def read_uint32 (buf : List Nat) (pos : Nat) : Except CodecError (Nat × Nat) :=
  match buf[pos]?, buf[pos + 1]?, buf[pos + 2]?, buf[pos + 3]? with
  | some b0, some b1, some b2, some b3 =>
      .ok (b0 + b1 * 2 ^ 8 + b2 * 2 ^ 16 + b3 * 2 ^ 24, pos + 4)
  | _, _, _, _ => .error .eof

/-- The loop body of `Datafile.read_varint`.  `iter_count`, `data` and
`cur_shift` are the loop variables of the source; four or more groups raise
the runaway-varint error. -/
def read_varint_go (buf : List Nat) (iter_count data cur_shift pos : Nat) :
    Except CodecError (Nat × Nat) :=
  if iter_count ≥ 4 then
    .error .runawayVarint
  else
    match buf[pos]? with
    | none => .error .eof
    | some new_byte =>
      let data' := data ||| ((new_byte &&& 0x7F) <<< cur_shift)
      if new_byte &&& 0x80 = 0x80 then
        read_varint_go buf (iter_count + 1) data' (cur_shift + 7) (pos + 1)
      else
        .ok (data', pos + 1)
  termination_by 4 - iter_count

/-- `Datafile.read_varint`: base-128 varint, little-endian group order,
high bit = continuation, capped at 4 groups. -/
def read_varint (buf : List Nat) (pos : Nat) : Except CodecError (Nat × Nat) :=
  read_varint_go buf 0 0 0 pos

/-- `Datafile.write_varint`: emit `value` as a base-128 varint.  Mirrors the
source's do-while loop: emit the low 7 bits, set the high bit whenever more
groups follow. -/
def write_varint (value : Nat) : List Nat :=
  let to_write := value &&& 0x7F
  let value' := value >>> 7
  if h : value' > 0 then
    (to_write ||| 0x80) :: write_varint value'
  else
    [to_write]
  termination_by value
  decreasing_by
    simp only [Nat.shiftRight_eq_div_pow] at h ⊢
    exact Nat.div_lt_self (Nat.pos_of_ne_zero (by omega)) (by norm_num)

/-- The string-reading side of the registry state of `Datafile`:
`string_read_lookup` (offset → decoded string, most recent binding first, as a
Python dict update), `string_read_seen`, and the two detection counters. -/
structure ReadStringState where
  string_read_lookup : List (Nat × List Nat) := []
  string_read_seen : List (List Nat) := []
  num_string_references : Nat := 0
  num_string_duplicates : Nat := 0
  deriving DecidableEq, Repr

/-- `Datafile.read_string`.  Returns `none` when the length varint is zero
(an absent value, distinct from the empty string); otherwise reads the
back-reference varint: `0` means a first occurrence (raw bytes follow, the
offset is recorded), a positive delta points back at an earlier string, whose
cached length must match. -/
def read_string (buf : List Nat) (pos : Nat) (st : ReadStringState) :
    Except CodecError (Option (List Nat) × Nat × ReadStringState) :=
  match read_varint buf pos with
  | .error e => .error e
  | .ok (strlen, pos1) =>
    if strlen = 0 then
      .ok (none, pos1, st)
    else
      let second_val_loc := pos1
      match read_varint buf pos1 with
      | .error e => .error e
      | .ok (second_val, pos2) =>
        if second_val = 0 then
          let string_loc := pos2
          let data := (buf.drop string_loc).take strlen
          let pos3 := string_loc + data.length
          let st1 := { st with string_read_lookup := (string_loc, data) :: st.string_read_lookup }
          if data ∈ st1.string_read_seen then
            .ok (some data, pos3,
              { st1 with num_string_duplicates := st1.num_string_duplicates + 1 })
          else
            .ok (some data, pos3,
              { st1 with string_read_seen := data :: st1.string_read_seen })
        else
          let target_loc := second_val_loc - second_val
          match st.string_read_lookup.lookup target_loc with
          | some destination_string =>
            if destination_string.length ≠ strlen then
              .error .stringRedirectLengthMismatch
            else
              .ok (some destination_string, pos2,
                { st with num_string_references := st.num_string_references + 1 })
          | none => .error .stringRedirectNotFound

/-- The string-writing side of `Datafile`: the global storage mode, the
content → offset registry, and the output buffer (all writes append, so
`tell()` is `out.length`). -/
structure WriteState where
  string_storage : StringStorage := .compressed
  string_write_lookup : List (List Nat × Nat) := []
  out : List Nat := []
  deriving DecidableEq, Repr

/-- `Datafile.write_string`.  `none` writes a single zero length byte.
Otherwise: varint length, then (in compressed mode) either a back-reference
delta `tell() - recorded` for known content, or a zero byte, position
recording and the raw bytes for a first occurrence; in expanded mode always
the zero byte and the raw bytes. -/
def write_string (st : WriteState) (value : Option (List Nat)) : WriteState :=
  match value with
  | none => { st with out := st.out ++ [0] }
  | some data =>
    let st := { st with out := st.out ++ write_varint data.length }
    let st := if st.string_storage = .unknown then { st with string_storage := .compressed } else st
    if st.string_storage = .compressed then
      match st.string_write_lookup.lookup data with
      | some recorded => { st with out := st.out ++ write_varint (st.out.length - recorded) }
      | none =>
        let st := { st with out := st.out ++ [0] }
        let st := { st with string_write_lookup := (data, st.out.length) :: st.string_write_lookup }
        { st with out := st.out ++ data }
    else
      { st with out := st.out ++ [0] ++ data }

/-- `Datafile.write_uint32`: the four little-endian bytes of a 32-bit value
(`struct.pack('<I', value)`; the packer requires `value < 2^32`). -/
def write_uint32 (value : Nat) : List Nat :=
  [value % 256, (value >>> 8) % 256, (value >>> 16) % 256, (value >>> 24) % 256]

/-- One bit step of the reflected CRC-32 (polynomial `0xEDB88320`). -/
def crc32_bit (c : Nat) : Nat :=
  if c &&& 1 = 1 then (c >>> 1) ^^^ 0xEDB88320 else c >>> 1

/-- One byte step of CRC-32. -/
def crc32_byte (crc b : Nat) : Nat :=
  crc32_bit^[8] (crc ^^^ (b &&& 0xFF))

/-- `binascii.crc32`: CRC-32 (IEEE), initial value and final mask
`0xFFFFFFFF`. -/
def crc32 (data : List Nat) : Nat :=
  (data.foldl crc32_byte 0xFFFFFFFF) ^^^ 0xFFFFFFFF

/-- The framing and checksum patching of `Savefile._prep_write_data`: magic
`SWH2`, version byte, a zeroed 4-byte checksum placeholder, then the record
tree and tail (abstracted here as `payload`, the concatenation of everything
the chunk writers emit); finally `crc32` of bytes 9..EOF is computed and
patched over the placeholder (`odf.seek(5); odf.write_uint32(new_checksum)`). -/
def prep_write_data_frame (version : Nat) (payload : List Nat) : List Nat :=
  let buf := [0x53, 0x57, 0x48, 0x32] ++ [version] ++ write_uint32 0 ++ payload
  let new_checksum := crc32 (buf.drop 9)
  buf.take 5 ++ write_uint32 new_checksum ++ buf.drop 9

/-- Errors of `Savefile.__init__`: a parse failure (of whatever error type
the record parsers raise), or the fatal
`RuntimeError('Could not reconstruct an identical savefile, aborting!')`. -/
inductive SavefileLoadError (PErr : Type) where
  | parseError (e : PErr)
  | reconstructionMismatch
  deriving DecidableEq

/-- `Datafile.get_string_storage_guess`: back-references seen with no
duplicates means compressed; duplicates with no back-references means
expanded; otherwise unknown. -/
def get_string_storage_guess (num_string_references num_string_duplicates : Nat) :
    StringStorage :=
  if num_string_references > 0 ∧ num_string_duplicates = 0 then .compressed
  else if num_string_references = 0 ∧ num_string_duplicates > 0 then .expanded
  else .unknown

/-- `Savefile.__init__` (the non-`do_write` path): parse the buffer (the
parser also accumulates the two string-storage detection counters, from which
`read_and_parse` sets `string_storage`), then re-encode with
`_prep_write_data(force_string_mode=self.string_storage)` and compare with
the original buffer; any difference raises the fatal reconstruction error.
The record-tree parser and encoder themselves are the `parse` and
`prep_write_data` parameters. -/
def savefile_init {Doc PErr : Type}
    (parse : List Nat → Except PErr (Doc × Nat × Nat))
    (prep_write_data : Doc → StringStorage → List Nat)
    (data : List Nat) : Except (SavefileLoadError PErr) (Doc × StringStorage) :=
  match parse data with
  | .error e => .error (.parseError e)
  | .ok (doc, num_string_references, num_string_duplicates) =>
    let string_storage := get_string_storage_guess num_string_references num_string_duplicates
    let test_data := prep_write_data doc string_storage
    if data ≠ test_data then
      .error .reconstructionMismatch
    else
      .ok (doc, string_storage)

/-- `WorldCloudData` (`MtBG` chunk): fog-of-war bitmap over the world map.
A bit value of 1 means a cloud is present, 0 means revealed. -/
structure WorldCloudData where
  zero : Nat
  unknown_1 : Nat
  size_x : Nat
  size_y : Nat
  data : List Nat
  deriving DecidableEq, Repr

/-- `WorldCloudData.MAP_DATA_SIZE`, hardcoded in the source. -/
def WorldCloudData.MAP_DATA_SIZE : Nat := 10440

/-- `WorldCloudData.reveal`: set the whole bitmap to `0x00` bytes. -/
def WorldCloudData.reveal (w : WorldCloudData) : WorldCloudData :=
  { w with data := List.replicate WorldCloudData.MAP_DATA_SIZE 0x00 }

/-- `WorldCloudData.hide`: set the whole bitmap to `0xFF` bytes. -/
def WorldCloudData.hide (w : WorldCloudData) : WorldCloudData :=
  { w with data := List.replicate WorldCloudData.MAP_DATA_SIZE 0xFF }

/-- `Datafile.read_chunk_header`: four raw bytes (the 4-character ASCII tag). -/
def read_chunk_header (buf : List Nat) (pos : Nat) : List Nat × Nat :=
  let header := (buf.drop pos).take 4
  (header, pos + header.length)

/-- `Chunk.__init__`: read the tag and compare with the expected one; a
mismatch is the fatal `RuntimeError('Expected chunk header ...')`. -/
def check_chunk_header (buf : List Nat) (pos : Nat) (expected : List Nat) :
    Except CodecError Nat :=
  let (header, pos1) := read_chunk_header buf pos
  if header = expected then .ok pos1 else .error .chunkHeaderMismatch

/-- The ASCII bytes of the `Difc` tag. -/
def difcTag : List Nat := [0x44, 0x69, 0x66, 0x63]

/-- The ASCII bytes of the `MsnD` tag. -/
def msnDTag : List Nat := [0x4D, 0x73, 0x6E, 0x44]

/-- `Difficulty` (`Difc` chunk): one unknown byte and eight uint32 settings. -/
structure Difficulty where
  unknown : Nat
  settings : List Nat
  deriving DecidableEq, Repr

/-- A counted sequence of uint32 reads (the `for _ in range(n)` loops). -/
def read_uint32_list (buf : List Nat) : Nat → Nat → Except CodecError (List Nat × Nat)
  | 0, pos => .ok ([], pos)
  | n + 1, pos =>
    match read_uint32 buf pos with
    | .error e => .error e
    | .ok (v, pos1) =>
      match read_uint32_list buf n pos1 with
      | .error e => .error e
      | .ok (vs, pos2) => .ok (v :: vs, pos2)

/-- A counted sequence of string reads. -/
def read_string_list (buf : List Nat) :
    Nat → Nat → ReadStringState →
      Except CodecError (List (Option (List Nat)) × Nat × ReadStringState)
  | 0, pos, st => .ok ([], pos, st)
  | n + 1, pos, st =>
    match read_string buf pos st with
    | .error e => .error e
    | .ok (s, pos1, st1) =>
      match read_string_list buf n pos1 st1 with
      | .error e => .error e
      | .ok (ss, pos2, st2) => .ok (s :: ss, pos2, st2)

/-- A counted sequence of uint32 pairs (`unknown_eight_bytes` entries). -/
def read_uint32_pairs (buf : List Nat) : Nat → Nat → Except CodecError (List (Nat × Nat) × Nat)
  | 0, pos => .ok ([], pos)
  | n + 1, pos =>
    match read_uint32 buf pos with
    | .error e => .error e
    | .ok (one, pos1) =>
      match read_uint32 buf pos1 with
      | .error e => .error e
      | .ok (two, pos2) =>
        match read_uint32_pairs buf n pos2 with
        | .error e => .error e
        | .ok (ps, pos3) => .ok ((one, two) :: ps, pos3)

/-- `Difficulty.__init__`. -/
def parse_difficulty (buf : List Nat) (pos : Nat) : Except CodecError (Difficulty × Nat) :=
  match check_chunk_header buf pos difcTag with
  | .error e => .error e
  | .ok pos1 =>
    match read_uint8 buf pos1 with
    | .error e => .error e
    | .ok (unknown, pos2) =>
      match read_uint32_list buf 8 pos2 with
      | .error e => .error e
      | .ok (settings, pos3) => .ok (⟨unknown, settings⟩, pos3)

/-- The fields of `MissionData.__init__` read before the in-mission check. -/
structure MissionDataPre where
  flag : Nat
  location : Option (List Nat)
  another_location : Option (List Nat)
  unknown_1 : Nat
  unknown_2 : Nat
  unknown_3 : Nat
  unknown_4 : Nat
  unknown_mission_related_1 : Nat
  unknown_mission_related_2 : Nat
  deriving DecidableEq, Repr

/-- `MissionData` (`MsnD` chunk), the full record. -/
structure MissionData where
  flag : Nat
  location : Option (List Nat)
  another_location : Option (List Nat)
  unknown_1 : Nat
  unknown_2 : Nat
  unknown_3 : Nat
  unknown_4 : Nat
  unknown_mission_related_1 : Nat
  unknown_mission_related_2 : Nat
  unknown_5 : Nat
  active_crew : List (Option (List Nat))
  unknown_6 : Nat
  unknown_7 : Nat
  unknown_same_1 : Nat
  unknown_same_2 : Nat
  unknown_same_3 : Nat
  unknown_same_4 : Nat
  unknown_zeroes_1 : Nat
  unknown_zeroes_2 : Nat
  unknown_zeroes_3 : Nat
  unknown_zeroes_4 : Nat
  unknown_zeroes_5 : Nat
  unknown_8 : Nat
  difficulty : Difficulty
  unknown_zeroes_6 : Nat
  unknown_eight_bytes : List (Nat × Nat)
  unknown_zeroes_7 : Nat
  unknown_zeroes_8 : Nat
  unknown_zeroes_9 : Nat
  unknown_strings : List (Option (List Nat))
  deriving DecidableEq, Repr

/-- `MissionData.__init__` up to (and excluding) the in-mission check: tag
validation, flag byte, the two location strings, four unknown bytes, and the
two mission-related bytes. -/
def parse_missionData_pre (buf : List Nat) (pos : Nat) (st : ReadStringState) :
    Except CodecError (MissionDataPre × Nat × ReadStringState) := do
  let pos ← check_chunk_header buf pos msnDTag
  let (flag, pos) ← read_uint8 buf pos
  let (location, pos, st) ← read_string buf pos st
  let (another_location, pos, st) ← read_string buf pos st
  let (unknown_1, pos) ← read_uint8 buf pos
  let (unknown_2, pos) ← read_uint8 buf pos
  let (unknown_3, pos) ← read_uint8 buf pos
  let (unknown_4, pos) ← read_uint8 buf pos
  let (unknown_mission_related_1, pos) ← read_uint8 buf pos
  let (unknown_mission_related_2, pos) ← read_uint8 buf pos
  return (⟨flag, location, another_location, unknown_1, unknown_2, unknown_3, unknown_4,
    unknown_mission_related_1, unknown_mission_related_2⟩, pos, st)

/-- `MissionData.__init__` after the in-mission check (the check passed):
the rest of the record in source order.  (The source also prints a NOTICE if
`unknown_same_1 ≠ unknown_same_3` or `unknown_same_2 ≠ unknown_same_4`, with
no effect on the parse.) -/
def parse_missionData_rest (buf : List Nat) (pos : Nat) (st : ReadStringState)
    (pre : MissionDataPre) : Except CodecError (MissionData × Nat × ReadStringState) := do
  let (unknown_5, pos) ← read_uint8 buf pos
  let (num_active_crew, pos) ← read_varint buf pos
  let (active_crew, pos, st) ← read_string_list buf num_active_crew pos st
  let (unknown_6, pos) ← read_uint8 buf pos
  let (unknown_7, pos) ← read_uint8 buf pos
  let (unknown_same_1, pos) ← read_uint32 buf pos
  let (unknown_same_2, pos) ← read_uint32 buf pos
  let (unknown_same_3, pos) ← read_uint32 buf pos
  let (unknown_same_4, pos) ← read_uint32 buf pos
  let (unknown_zeroes_1, pos) ← read_uint8 buf pos
  let (unknown_zeroes_2, pos) ← read_uint8 buf pos
  let (unknown_zeroes_3, pos) ← read_uint8 buf pos
  let (unknown_zeroes_4, pos) ← read_uint8 buf pos
  let (unknown_zeroes_5, pos) ← read_uint8 buf pos
  let (unknown_8, pos) ← read_varint buf pos
  let (difficulty, pos) ← parse_difficulty buf pos
  let (unknown_zeroes_6, pos) ← read_uint8 buf pos
  let (num_eight, pos) ← read_varint buf pos
  let (unknown_eight_bytes, pos) ← read_uint32_pairs buf num_eight pos
  let (unknown_zeroes_7, pos) ← read_uint8 buf pos
  let (unknown_zeroes_8, pos) ← read_uint8 buf pos
  let (unknown_zeroes_9, pos) ← read_uint8 buf pos
  let (num_strings, pos) ← read_varint buf pos
  let (unknown_strings, pos, st) ← read_string_list buf num_strings pos st
  return (⟨pre.flag, pre.location, pre.another_location,
    pre.unknown_1, pre.unknown_2, pre.unknown_3, pre.unknown_4,
    pre.unknown_mission_related_1, pre.unknown_mission_related_2,
    unknown_5, active_crew, unknown_6, unknown_7,
    unknown_same_1, unknown_same_2, unknown_same_3, unknown_same_4,
    unknown_zeroes_1, unknown_zeroes_2, unknown_zeroes_3, unknown_zeroes_4, unknown_zeroes_5,
    unknown_8, difficulty, unknown_zeroes_6, unknown_eight_bytes,
    unknown_zeroes_7, unknown_zeroes_8, unknown_zeroes_9, unknown_strings⟩, pos, st)

/-- The errors the mutation operations can raise (`RuntimeError` subcases in
the source, plus the Python `IndexError`/`ValueError` that out-of-range list
indexing and `list.remove` on a missing element would raise). -/
inductive EditError where
  /-- `RuntimeError('Job "..." not found in gamedata structures')`. -/
  | unknownJob
  /-- `RuntimeError('Unknown crew member to unlock: ...')`. -/
  | unknownCrew
  /-- Python `IndexError` from `job_info.skills[skills_idx]`. -/
  | indexError
  /-- Python `ValueError` from `self.cog_selections.remove(skill)`. -/
  | valueError
  deriving DecidableEq, Repr

/-- `JobStatus`: per-job level and XP of a crew member. -/
structure JobStatus where
  name : String
  level : Nat
  xp : Nat
  deriving DecidableEq, Repr

/-- `CrewStatus` (`Pers` chunk), as the in-memory record mutated by the
editing operations.  `jobs` is a Python insertion-ordered dict, modelled as
an association list. -/
structure CrewStatus where
  unknown_start : Nat
  name : String
  jobs : List (String × JobStatus)
  cog_selections : List String
  reserve_xp : Nat
  num_missions : Nat
  personal_upgrade_count : Nat
  deriving DecidableEq, Repr

/-- The `Experience` catalog object (`XP` in `gamedata.py`, autogenerated
from game data): the level → required-XP curve and the maximum level.
`level_to_xp` is a dict with keys `0..max_level`; every access the code
performs is within that range, so it is modelled as a total function. -/
structure Experience where
  level_to_xp : Nat → Nat
  max_level : Nat

/-- The `Job` catalog object (in `JOBS` of `gamedata.py`): per-level skill
(cog) name lists, indexed by level. -/
structure JobInfo where
  skills : List (List String)
  deriving DecidableEq, Repr

/-- `CrewStatus.JOB_ORDER`. -/
def JOB_ORDER : List String := ["engineer", "tank", "hunter", "boomer", "flanker", "sniper"]

/-- Update the value stored under an existing key of a Python dict (the
in-place mutation of the looked-up object): order kept. -/
def dict_update {β : Type} (l : List (String × β)) (k : String) (v : β) :
    List (String × β) :=
  l.map (fun p => if p.1 = k then (k, v) else p)

/-- Python dict assignment `d[k] = v`: replace in place if the key exists,
otherwise append at the end. -/
def dict_insert {β : Type} (l : List (String × β)) (k : String) (v : β) :
    List (String × β) :=
  if (l.lookup k).isSome then l.map (fun p => if p.1 = k then (k, v) else p)
  else l ++ [(k, v)]

/-- The inner loop of the downlevel branch of `CrewStatus.job_level_to`:
`for skill in level_skills: if skill in cur_cog_selections:
self.cog_selections.remove(skill)` (remove raises `ValueError` when the
element is gone). -/
def remove_skill_list (cur_cog_selections : List String) (level_skills : List String)
    (cog_selections : List String) : Except EditError (List String) :=
  match level_skills with
  | [] => .ok cog_selections
  | skill :: rest =>
    if skill ∈ cur_cog_selections then
      if skill ∈ cog_selections then
        remove_skill_list cur_cog_selections rest (cog_selections.erase skill)
      else .error .valueError
    else remove_skill_list cur_cog_selections rest cog_selections

/-- The outer loop of the downlevel branch:
`for skills_idx in range(job.level, to_level, -1): level_skills =
job_info.skills[skills_idx]; ...` (list indexing raises `IndexError` when
out of range). -/
def remove_skills (cur_cog_selections : List String) (skills : List (List String))
    (hi lo : Nat) (cog_selections : List String) : Except EditError (List String) :=
  if lo < hi then
    match skills[hi]? with
    | none => .error .indexError
    | some level_skills =>
      match remove_skill_list cur_cog_selections level_skills cog_selections with
      | .error e => .error e
      | .ok sels1 => remove_skills cur_cog_selections skills (hi - 1) lo sels1
  else .ok cog_selections
  termination_by hi - lo

/-- The concatenation of the per-level skill lists visited by
`range(hi, lo, -1)`, in visit order: used to state which cogs the downlevel
branch removes. -/
def range_skills (skills : List (List String)) (hi lo : Nat) : List String :=
  if lo < hi then (skills[hi]?.getD []) ++ range_skills skills (hi - 1) lo
  else []
  termination_by hi - lo

/-- `CrewStatus.job_level_to`. -/
def job_level_to (XP : Experience) (JOBS : String → Option JobInfo) (cs : CrewStatus)
    (job_name : String) (to_level0 : Nat) (allow_downlevel : Bool) :
    Except EditError CrewStatus :=
  let to_level := min to_level0 XP.max_level
  match JOBS job_name with
  | none => .error .unknownJob
  | some job_info =>
    match cs.jobs.lookup job_name with
    | some job =>
      if job.level = to_level then .ok cs
      else if job.level < to_level then
        .ok { cs with jobs := (dict_update cs.jobs job_name
          { job with level := to_level, xp := XP.level_to_xp to_level }) }
      else
        if allow_downlevel then
          match remove_skills cs.cog_selections job_info.skills job.level to_level
              cs.cog_selections with
          | .error e => .error e
          | .ok sels =>
            .ok { cs with
                  cog_selections := sels,
                  jobs := (dict_update cs.jobs job_name
                    { job with level := to_level, xp := XP.level_to_xp to_level }) }
        else .ok cs
    | none =>
      if to_level = 0 then .ok cs
      else
        .ok { cs with jobs := (JOB_ORDER.filterMap (fun new_job_name =>
          match cs.jobs.lookup new_job_name with
          | some j => some (new_job_name, j)
          | none =>
            if new_job_name = job_name then
              some (new_job_name, ⟨new_job_name, to_level, XP.level_to_xp to_level⟩)
            else none)) }

/-- `CrewStatus.create_new`: the source serializes a `Pers` chunk with the
byte 2, the name, two empty job lists, an empty cog list and three zero
uint32s into a throwaway buffer and re-parses it; the parse of exactly those
bytes yields this record. -/
def CrewStatus.create_new (name : String) : CrewStatus :=
  ⟨2, name, [], [], 0, 0, 0⟩

/-- `Loadout._get_inventory_item_or_id`: resolve an id through
`items_by_id`, keeping the raw number when it is not a known item id.  The
inventory item type is abstract here (`Item`); `unlock_crew` never inspects
items. -/
def get_inventory_item_or_id {Item : Type} (items_by_id : List (Nat × Item))
    (item_id : Nat) : Sum Nat Item :=
  match items_by_id.lookup item_id with
  | some item => .inr item
  | none => .inl item_id

/-- `Loadout` (`CrLo` chunk), over an abstract inventory-item type. -/
structure Loadout (Item : Type) where
  zero : Nat
  name : String
  cur_weapon : Sum Nat Item
  unknown : Nat
  utility_1 : Sum Nat Item
  utility_2 : Sum Nat Item
  utility_3 : Sum Nat Item
  cur_hat : Option String
  used : Nat

/-- `Loadout.create_new`: the source serializes a `CrLo` chunk (zero byte,
the name, four absent-string zero bytes read back as varint item id 0, the
varint 3, an absent hat and a zero uint32) into a throwaway buffer and
re-parses it, resolving the id-0 item references through `items_by_id`. -/
def Loadout.create_new {Item : Type} (name : String) (items_by_id : List (Nat × Item)) :
    Loadout Item :=
  ⟨0, name, get_inventory_item_or_id items_by_id 0, 3,
   get_inventory_item_or_id items_by_id 0, get_inventory_item_or_id items_by_id 0,
   get_inventory_item_or_id items_by_id 0, none, 0⟩

/-- `ReDe` chunk: the recruitment pool (plus its unknown counter). -/
structure ReDe where
  zero : Nat
  items : List (Option String)
  unknown : Nat
  deriving DecidableEq, Repr

/-- `ShopData` (`PBar` chunk): the fields of a shop/bar record. -/
structure ShopData where
  name : Option String
  unknown_begin_1 : Nat
  unknown_begin_2 : Nat
  has_crew : Nat
  crew_unknown_zero : Nat
  available_crew : List (Option String)
  purchased_items : List (Option String × Nat)
  unknown_end : Nat

/-- The slice of `Savefile` state read or written by `Savefile.unlock_crew`:
the header crew list, the inventory hat lists / loadouts / item table, the
two top-level crew lists, the `ReDe` recruitment pool, the shops, and the
`CrewController` crew dict. -/
structure SaveDocState (Item : Type) where
  header_crew : List (Option String)
  inventory_hats : List (Option String)
  inventory_new_hats : List (Option String)
  inventory_loadouts : List (String × Loadout Item)
  inventory_items_by_id : List (Nat × Item)
  crew_list : List (Option String)
  used_crew : List (Option String)
  rede : Option ReDe
  shops : List ShopData
  crew : List (String × CrewStatus)

/-- The `Crew` catalog object (in `CREW` of `gamedata.py`): name, label,
default job and default hat, keyed by name or in-game label. -/
structure CrewInfo where
  name : String
  label : String
  default_job : String
  default_hat : String
  deriving DecidableEq, Repr

/-- `Savefile.unlock_crew`. -/
def unlock_crew {Item : Type} (CREW : String → Option CrewInfo) (XP : Experience)
    (JOBS : String → Option JobInfo) (sv : SaveDocState Item) (crew_name : String)
    (level : Nat) (flag_as_new : Bool) : Except EditError (SaveDocState Item) :=
  match CREW crew_name with
  | none => .error .unknownCrew
  | some crew_info =>
    if (some crew_info.name) ∈ sv.crew_list then .ok sv
    else
      let sv := { sv with header_crew := sv.header_crew ++ [some crew_info.name] }
      let sv :=
        if (some crew_info.default_hat) ∈ sv.inventory_hats then sv
        else
          let sv := { sv with
            inventory_hats := sv.inventory_hats ++ [some crew_info.default_hat] }
          if flag_as_new then
            { sv with
              inventory_new_hats := sv.inventory_new_hats ++ [some crew_info.default_hat] }
          else sv
      let loadout := Loadout.create_new crew_info.name sv.inventory_items_by_id
      let loadout := { loadout with cur_hat := some crew_info.default_hat }
      let sv := { sv with
        inventory_loadouts := dict_insert sv.inventory_loadouts crew_info.name loadout }
      let sv := { sv with crew_list := sv.crew_list ++ [some crew_info.name] }
      let sv :=
        match sv.rede with
        | none => sv
        | some rede =>
          let rede :=
            if (some crew_info.name) ∈ rede.items then
              { rede with items := rede.items.erase (some crew_info.name) }
            else rede
          let rede := if rede.items.length = 0 then { rede with unknown := 0 } else rede
          { sv with rede := some rede }
      let sv := { sv with shops := (sv.shops.map (fun (shop : ShopData) =>
        { shop with available_crew := (shop.available_crew.map
            (fun c => if c = some crew_info.name then none else c)) })) }
      let crew := CrewStatus.create_new crew_info.name
      match job_level_to XP JOBS crew crew_info.default_job level false with
      | .error e => .error e
      | .ok crew => .ok { sv with crew := dict_insert sv.crew crew_info.name crew }

/-- `MissionData.__init__`: the prefix fields, then
`if self.unknown_mission_related_1 > 0 or self.unknown_mission_related_2:
raise InMissionSavegameException()`, then the rest of the record. -/
def parse_missionData (buf : List Nat) (pos : Nat) (st : ReadStringState) :
    Except CodecError (MissionData × Nat × ReadStringState) :=
  match parse_missionData_pre buf pos st with
  | .error e => .error e
  | .ok (pre, pos1, st1) =>
    if pre.unknown_mission_related_1 > 0 ∨ pre.unknown_mission_related_2 ≠ 0 then
      .error .inMissionSavegame
    else
      parse_missionData_rest buf pos1 st1 pre

end Swh2save

namespace Swh2save

lemma write_varint_lt (n : Nat) (h : n < 128) : write_varint n = [n] := by
  rw [write_varint]
  have h7 : n >>> 7 = 0 := by
    rw [Nat.shiftRight_eq_div_pow]
    omega
  simp only [h7, gt_iff_lt, Nat.lt_irrefl, dite_false]
  have : n &&& 0x7F = n := by
    have := Nat.and_pow_two_sub_one_eq_mod n 7
    norm_num at this
    rw [this]
    omega
  simp [this]

lemma write_varint_ge (n : Nat) (h : 128 ≤ n) :
    write_varint n = ((n &&& 0x7F) ||| 0x80) :: write_varint (n >>> 7) := by
  rw [write_varint]
  have h7 : n >>> 7 > 0 := by
    rw [Nat.shiftRight_eq_div_pow]
    have : (0:Nat) < n / 2 ^ 7 := Nat.div_pos (by omega) (by norm_num)
    simpa using this
  simp [h7]

lemma write_varint_length_le (k : Nat) :
    ∀ n : Nat, n < 2 ^ (7 * (k + 1)) → (write_varint n).length ≤ k + 1 := by
  induction k with
  | zero =>
    intro n hn
    norm_num at hn
    rw [write_varint_lt n hn]
    simp
  | succ k ih =>
    intro n hn
    by_cases hsmall : n < 128
    · rw [write_varint_lt n hsmall]; simp
    · rw [write_varint_ge n (by omega)]
      have : n >>> 7 < 2 ^ (7 * (k + 1)) := by
        rw [Nat.shiftRight_eq_div_pow]
        have hlt : n < 2 ^ (7 * (k + 1)) * 2 ^ 7 := by
          calc n < 2 ^ (7 * (k + 1 + 1)) := hn
          _ = 2 ^ (7 * (k + 1) + 7) := by ring_nf
          _ = 2 ^ (7 * (k + 1)) * 2 ^ 7 := by rw [Nat.pow_add]
        exact Nat.div_lt_of_lt_mul (by omega)
      have := ih (n >>> 7) this
      simp only [List.length_cons]
      omega

/-- Bit arithmetic: merging new low-bits when the accumulator fits below the
current shift. -/
lemma lor_shiftLeft_eq_add {data k shift : Nat} (h : data < 2 ^ shift) :
    data ||| (k <<< shift) = data + k * 2 ^ shift := by
  rw [Nat.shiftLeft_eq, Nat.lor_comm, Nat.mul_comm k (2 ^ shift)]
  rw [← Nat.mul_add_lt_is_or h k]
  omega

lemma and_0x7F_eq_mod (b : Nat) : b &&& 0x7F = b % 128 := by
  have := Nat.and_pow_two_sub_one_eq_mod b 7
  norm_num at this
  exact this

lemma first_byte_and_0x7F (n : Nat) : ((n &&& 0x7F) ||| 0x80) &&& 0x7F = n % 128 := by
  rw [Nat.and_distrib_right]
  have h1 : (0x80 : Nat) &&& 0x7F = 0 := by decide
  rw [h1, and_0x7F_eq_mod, and_0x7F_eq_mod]
  have h2 : n % 128 % 128 = n % 128 := Nat.mod_mod_of_dvd n dvd_rfl
  simp [h2]

lemma first_byte_and_0x80 (n : Nat) : ((n &&& 0x7F) ||| 0x80) &&& 0x80 = 0x80 := by
  rw [Nat.and_distrib_right]
  have h1 : (0x80 : Nat) &&& 0x80 = 0x80 := by decide
  rw [h1]
  have h2 : (n &&& 0x7F) &&& 0x80 = 0 := by
    rw [and_0x7F_eq_mod]
    have hlt : n % 128 < 2 ^ 7 := by
      have := Nat.mod_lt n (y := 128) (by norm_num)
      norm_num
      omega
    have := Nat.and_two_pow (n % 128) 7
    rw [Nat.testBit_lt_two_pow hlt] at this
    norm_num at this
    exact this
  rw [h2]
  decide

lemma last_byte_and_0x80 (b : Nat) (h : b < 128) : ¬(b &&& 0x80 = 0x80) := by
  have hlt : b < 2 ^ 7 := by norm_num; omega
  have := Nat.and_two_pow b 7
  rw [Nat.testBit_lt_two_pow hlt] at this
  norm_num at this
  norm_num
  omega

/-- Decoding what `write_varint` produced, at any position inside a larger
buffer, with any partially-accumulated state. -/
lemma read_varint_go_write (n : Nat) :
    ∀ iter_count data cur_shift (pre tail : List Nat),
      iter_count + (write_varint n).length ≤ 4 → data < 2 ^ cur_shift →
      read_varint_go (pre ++ (write_varint n ++ tail)) iter_count data cur_shift pre.length
        = .ok (data + n * 2 ^ cur_shift, pre.length + (write_varint n).length) := by
  induction n using Nat.strong_induction_on with
  | _ n ih =>
    intro iter_count data cur_shift pre tail hlen hdata
    by_cases hsmall : n < 128
    · rw [write_varint_lt n hsmall] at hlen ⊢
      rw [read_varint_go]
      have hiter : ¬(iter_count ≥ 4) := by simp at hlen ⊢; omega
      have hget : (pre ++ ([n] ++ tail))[pre.length]? = some n := by
        rw [List.getElem?_append_right (Nat.le_refl _)]
        simp
      simp only [hiter, if_false, hget]
      have hstop := last_byte_and_0x80 n hsmall
      simp only [hstop, if_false]
      have : n &&& 0x7F = n := by rw [and_0x7F_eq_mod]; omega
      rw [this, lor_shiftLeft_eq_add hdata]
      simp
    · push_neg at hsmall
      rw [write_varint_ge n hsmall] at hlen ⊢
      rw [read_varint_go]
      have hiter : ¬(iter_count ≥ 4) := by simp at hlen ⊢; omega
      have hget : (pre ++ (((n &&& 0x7F) ||| 0x80) :: write_varint (n >>> 7) ++ tail))[pre.length]?
          = some ((n &&& 0x7F) ||| 0x80) := by
        rw [List.getElem?_append_right (Nat.le_refl _)]
        simp
      simp only [hiter, if_false, hget]
      rw [first_byte_and_0x80 n]
      simp only [if_true]
      rw [first_byte_and_0x7F n]
      have hrec : n >>> 7 < n := by
        rw [Nat.shiftRight_eq_div_pow]
        exact Nat.div_lt_self (by omega) (by norm_num)
      have hbuf : pre ++ (((n &&& 0x7F) ||| 0x80) :: write_varint (n >>> 7) ++ tail)
          = (pre ++ [(n &&& 0x7F) ||| 0x80]) ++ (write_varint (n >>> 7) ++ tail) := by
        simp
      have hpos : pre.length + 1 = (pre ++ [(n &&& 0x7F) ||| 0x80]).length := by simp
      rw [hbuf, hpos]
      have hdata' : data ||| (n % 128) <<< cur_shift < 2 ^ (cur_shift + 7) := by
        rw [lor_shiftLeft_eq_add hdata]
        have hm : n % 128 ≤ 127 := by omega
        calc data + n % 128 * 2 ^ cur_shift
            < 2 ^ cur_shift + 127 * 2 ^ cur_shift := by
              have : n % 128 * 2 ^ cur_shift ≤ 127 * 2 ^ cur_shift :=
                Nat.mul_le_mul_right _ hm
              omega
          _ = 128 * 2 ^ cur_shift := by ring
          _ = 2 ^ (cur_shift + 7) := by rw [Nat.pow_add]; ring
      have hlen' : (iter_count + 1) + (write_varint (n >>> 7)).length ≤ 4 := by
        simp only [List.length_cons] at hlen
        omega
      rw [ih (n >>> 7) hrec (iter_count + 1) _ (cur_shift + 7) _ tail hlen' hdata']
      simp only [Except.ok.injEq, Prod.mk.injEq]
      refine ⟨?_, ?_⟩
      · rw [lor_shiftLeft_eq_add hdata]
        have hdecomp : n = 128 * (n / 128) + n % 128 := (Nat.div_add_mod n 128).symm ▸ by omega
        rw [Nat.shiftRight_eq_div_pow]
        norm_num
        rw [Nat.pow_add]
        calc data + n % 128 * 2 ^ cur_shift + n / 128 * (2 ^ cur_shift * 2 ^ 7)
            = data + (n % 128 + 128 * (n / 128)) * 2 ^ cur_shift := by ring
          _ = data + n * 2 ^ cur_shift := by rw [Nat.add_comm (n % 128)]; rw [← hdecomp]
      · simp only [List.length_append, List.length_cons, List.length_nil]
        omega

/-- Decoding a freshly encoded varint from the start of a buffer. -/
lemma read_varint_write (n : Nat) (tail : List Nat) (h : (write_varint n).length ≤ 4) :
    read_varint (write_varint n ++ tail) 0 = .ok (n, (write_varint n).length) := by
  have := read_varint_go_write n 0 0 0 [] tail (by omega) (by norm_num)
  simpa [read_varint] using this

/-- C3: for every `n < 2^28`, decoding the encoder's output yields `n` again,
and the encoder emits at most 4 base-128 groups. -/
theorem varint_roundtrip (n : Nat) (h : n < 2 ^ 28) :
    read_varint (write_varint n) 0 = .ok (n, (write_varint n).length)
      ∧ (write_varint n).length ≤ 4 := by
  have hlen : (write_varint n).length ≤ 4 := by
    have := write_varint_length_le 3 n (by norm_num at h ⊢; exact h)
    omega
  refine ⟨?_, hlen⟩
  have := read_varint_write n [] hlen
  simpa using this

/-- Witness for C3 at `n = 300`. -/
theorem varint_roundtrip_witness :
    read_varint (write_varint 300) 0 = .ok (300, (write_varint 300).length)
      ∧ (write_varint 300).length ≤ 4 :=
  varint_roundtrip 300 (by norm_num)

/-- C4: if the first four bytes consumed all have the continuation bit set,
`read_varint` raises the runaway-varint error, regardless of (and without
consuming) any later byte. -/
theorem varint_runaway (b0 b1 b2 b3 : Nat) (rest : List Nat)
    (h0 : b0 &&& 0x80 = 0x80) (h1 : b1 &&& 0x80 = 0x80)
    (h2 : b2 &&& 0x80 = 0x80) (h3 : b3 &&& 0x80 = 0x80) :
    read_varint (b0 :: b1 :: b2 :: b3 :: rest) 0 = .error .runawayVarint
      ∧ read_varint (b0 :: b1 :: b2 :: b3 :: rest) 0 = read_varint [b0, b1, b2, b3] 0 := by
  have step : ∀ (buf : List Nat) (iter data shift pos b : Nat), iter < 4 →
      buf[pos]? = some b → b &&& 0x80 = 0x80 →
      read_varint_go buf iter data shift pos
        = read_varint_go buf (iter + 1) (data ||| ((b &&& 0x7F) <<< shift)) (shift + 7) (pos + 1) := by
    intro buf iter data shift pos b hiter hget hb
    rw [read_varint_go]
    simp only [Nat.not_le.mpr hiter, ge_iff_le, if_false, hget, hb, if_pos rfl]
    simp
  have stop : ∀ (buf : List Nat) (data shift pos : Nat),
      read_varint_go buf 4 data shift pos = .error .runawayVarint := by
    intro buf data shift pos
    rw [read_varint_go]
    simp
  have chain : ∀ (rest' : List Nat),
      read_varint (b0 :: b1 :: b2 :: b3 :: rest') 0 = .error .runawayVarint := by
    intro rest'
    rw [read_varint]
    rw [step _ 0 0 0 0 b0 (by omega) (by simp) h0]
    rw [step _ 1 _ _ 1 b1 (by omega) (by simp) h1]
    rw [step _ 2 _ _ 2 b2 (by omega) (by simp) h2]
    rw [step _ 3 _ _ 3 b3 (by omega) (by simp) h3]
    exact stop _ _ _ _
  refine ⟨chain rest, ?_⟩
  rw [chain rest, show [b0, b1, b2, b3] = b0 :: b1 :: b2 :: b3 :: [] from rfl, chain []]

/-- Witness for C4: four continuation bytes followed by junk. -/
theorem varint_runaway_witness :
    read_varint (0x81 :: 0x82 :: 0x83 :: 0x84 :: [7, 7]) 0 = .error .runawayVarint
      ∧ read_varint (0x81 :: 0x82 :: 0x83 :: 0x84 :: [7, 7]) 0
          = read_varint [0x81, 0x82, 0x83, 0x84] 0 :=
  varint_runaway 0x81 0x82 0x83 0x84 [7, 7] (by decide) (by decide) (by decide) (by decide)

lemma write_varint_length_pos (n : Nat) : 0 < (write_varint n).length := by
  rw [write_varint]
  split <;> simp

/-- Whenever a non-`none` value is written, the output grows by the length
varint plus at least one more byte. -/
lemma write_string_some_out (st : WriteState) (data : List Nat) :
    ∃ mid : List Nat,
      (write_string st (some data)).out = st.out ++ write_varint data.length ++ mid
        ∧ 1 ≤ mid.length := by
  rcases hstor : st.string_storage with _ | _ | _
  · rcases hl : st.string_write_lookup.lookup data with _ | recorded
    · exact ⟨0 :: data, by simp [write_string, hstor, hl], by simp⟩
    · exact ⟨write_varint (st.out.length + (write_varint data.length).length - recorded),
        by simp [write_string, hstor, hl], write_varint_length_pos _⟩
  · exact ⟨0 :: data, by simp [write_string, hstor], by simp⟩
  · rcases hl : st.string_write_lookup.lookup data with _ | recorded
    · exact ⟨0 :: data, by simp [write_string, hstor, hl], by simp⟩
    · exact ⟨write_varint (st.out.length + (write_varint data.length).length - recorded),
        by simp [write_string, hstor, hl], write_varint_length_pos _⟩

/-- C6: a stored length of zero is the absent value, distinct from the empty
string.  `read_string` returns `none` exactly when the length varint decoded
to `0`; on the write side, `none` emits the single zero byte while the empty
string emits strictly more, so the two encodings are never byte-identical. -/
theorem string_absent_distinct_from_empty :
    (∀ (buf : List Nat) (pos : Nat) (st : ReadStringState) v pos' st',
        read_string buf pos st = .ok (v, pos', st') →
        (v = none ↔ read_varint buf pos = .ok (0, pos')))
    ∧ (∀ st : WriteState, (write_string st none).out = st.out ++ [0])
    ∧ (∀ st : WriteState, (write_string st (some [])).out ≠ (write_string st none).out) := by
  refine ⟨?_, ?_, ?_⟩
  · intro buf pos st v pos' st' h
    simp only [read_string] at h
    cases hv : read_varint buf pos with
    | error e => simp only [hv] at h; exact absurd h (by simp)
    | ok res =>
      obtain ⟨strlen, pos1⟩ := res
      simp only [hv] at h
      by_cases hz : strlen = 0
      · subst hz
        simp only [eq_self_iff_true, if_true] at h
        simp only [Except.ok.injEq, Prod.mk.injEq] at h
        obtain ⟨h1, h2, h3⟩ := h
        subst h1; subst h2
        simp [hv]
      · rw [if_neg hz] at h
        have hvsome : ∃ w, v = some w := by
          cases hv2 : read_varint buf pos1 with
          | error e => simp only [hv2] at h; exact absurd h (by simp)
          | ok res2 =>
            obtain ⟨second_val, pos2⟩ := res2
            simp only [hv2] at h
            by_cases hs : second_val = 0
            · subst hs
              simp only [eq_self_iff_true, if_true] at h
              split at h <;>
                (simp only [Except.ok.injEq, Prod.mk.injEq] at h; exact ⟨_, h.1.symm⟩)
            · rw [if_neg hs] at h
              cases hl : st.string_read_lookup.lookup (pos1 - second_val) with
              | none => simp only [hl] at h; exact absurd h (by simp)
              | some dest =>
                simp only [hl] at h
                by_cases hdl : dest.length ≠ strlen
                · rw [if_pos hdl] at h; exact absurd h (by simp)
                · rw [if_neg hdl] at h
                  simp only [Except.ok.injEq, Prod.mk.injEq] at h
                  exact ⟨_, h.1.symm⟩
        obtain ⟨w, hw⟩ := hvsome
        subst hw
        constructor
        · intro hn; exact absurd hn (by simp)
        · intro hzero
          simp only [Except.ok.injEq, Prod.mk.injEq] at hzero
          exact absurd hzero.1 hz
  · intro st
    simp [write_string]
  · intro st h
    obtain ⟨mid, hout, hmid⟩ := write_string_some_out st []
    rw [hout] at h
    have hlen := congrArg List.length h
    simp only [write_string, List.length_append] at hlen
    have := write_varint_length_pos 0
    simp at hlen
    omega

/-- Witness for C6: a buffer holding just a zero length byte, and a fresh
write state. -/
theorem string_absent_distinct_from_empty_witness :
    ((none : Option (List Nat)) = none ↔ read_varint [0] 0 = .ok (0, 1))
      ∧ (write_string ⟨.compressed, [], []⟩ none).out = ([] : List Nat) ++ [0]
      ∧ (write_string ⟨.compressed, [], []⟩ (some [])).out
          ≠ (write_string ⟨.compressed, [], []⟩ none).out := by
  refine ⟨?_, ?_, ?_⟩
  · exact string_absent_distinct_from_empty.1 [0] 0 ⟨[], [], 0, 0⟩ none 1 ⟨[], [], 0, 0⟩
      (by simp +decide [read_string, read_varint, read_varint_go])
  · exact string_absent_distinct_from_empty.2.1 ⟨.compressed, [], []⟩
  · exact string_absent_distinct_from_empty.2.2 ⟨.compressed, [], []⟩

/-- In compressed mode, the first occurrence of a content writes the zero
marker, the raw bytes, and records the position of the raw bytes. -/
lemma write_string_first (st : WriteState) (S : List Nat)
    (hmode : st.string_storage = .compressed)
    (hlookup : st.string_write_lookup.lookup S = none) :
    write_string st (some S) =
      ⟨.compressed,
       (S, st.out.length + (write_varint S.length).length + 1) :: st.string_write_lookup,
       st.out ++ write_varint S.length ++ [0] ++ S⟩ := by
  simp [write_string, hmode, hlookup, WriteState.mk.injEq]
  omega

/-- In compressed mode, a repeated content writes the delta
`tell() - recorded` instead of the raw bytes. -/
lemma write_string_repeat (st : WriteState) (S : List Nat) (recorded : Nat)
    (hmode : st.string_storage = .compressed)
    (hlookup : st.string_write_lookup.lookup S = some recorded) :
    write_string st (some S) =
      ⟨.compressed, st.string_write_lookup,
       st.out ++ write_varint S.length
         ++ write_varint (st.out.length + (write_varint S.length).length - recorded)⟩ := by
  simp [write_string, hmode, hlookup, WriteState.mk.injEq]

/-- In expanded mode every write is a first-occurrence and the registry is
never consulted or extended. -/
lemma write_string_expanded (st : WriteState) (S : List Nat)
    (hmode : st.string_storage = .expanded) :
    write_string st (some S) =
      ⟨.expanded, st.string_write_lookup,
       st.out ++ write_varint S.length ++ [0] ++ S⟩ := by
  simp [write_string, hmode, WriteState.mk.injEq]

/-- `read_string` on a first-occurrence field (`D = 0`): returns the raw
bytes and records them at their offset. -/
lemma read_string_first_occurrence (buf : List Nat) (pos : Nat) (st : ReadStringState)
    (strlen pos1 pos2 : Nat)
    (hv1 : read_varint buf pos = .ok (strlen, pos1)) (hne : strlen ≠ 0)
    (hv2 : read_varint buf pos1 = .ok (0, pos2))
    (hseen : (buf.drop pos2).take strlen ∉ st.string_read_seen) :
    read_string buf pos st = .ok (some ((buf.drop pos2).take strlen),
      pos2 + ((buf.drop pos2).take strlen).length,
      ⟨(pos2, (buf.drop pos2).take strlen) :: st.string_read_lookup,
       (buf.drop pos2).take strlen :: st.string_read_seen,
       st.num_string_references, st.num_string_duplicates⟩) := by
  simp only [read_string, hv1, if_neg hne, hv2, eq_self_iff_true, if_true]
  rw [if_neg hseen]

/-- `read_string` on a back-reference field (`D > 0`): resolves
`second_val_loc - D` through the registry, checks the cached length, and
returns the cached content. -/
lemma read_string_backref (buf : List Nat) (pos : Nat) (st : ReadStringState)
    (strlen pos1 second pos2 : Nat) (dest : List Nat)
    (hv1 : read_varint buf pos = .ok (strlen, pos1)) (hne : strlen ≠ 0)
    (hv2 : read_varint buf pos1 = .ok (second, pos2)) (hsne : second ≠ 0)
    (hlook : st.string_read_lookup.lookup (pos1 - second) = some dest)
    (hdl : dest.length = strlen) :
    read_string buf pos st = .ok (some dest, pos2,
      ⟨st.string_read_lookup, st.string_read_seen,
       st.num_string_references + 1, st.num_string_duplicates⟩) := by
  simp only [read_string, hv1, if_neg hne, hv2, if_neg hsne, hlook]
  rw [if_neg (by omega : ¬dest.length ≠ strlen)]

/-- C5: writing the same non-empty content twice in compressed mode emits one
first-occurrence (`D = 0` marker, raw bytes, position recorded) and one
back-reference with positive delta `current position - recorded position`,
and the read side resolves both fields to the original content; in expanded
mode both writes are first-occurrences. -/
theorem string_backref_roundtrip (pre S : List Nat) (hS : S ≠ []) (hbound : S.length < 2 ^ 27) :
    (write_string ⟨.compressed, [], pre⟩ (some S)).out
        = pre ++ write_varint S.length ++ [0] ++ S
    ∧ (write_string ⟨.compressed, [], pre⟩ (some S)).string_write_lookup
        = [(S, pre.length + (write_varint S.length).length + 1)]
    ∧ (write_string (write_string ⟨.compressed, [], pre⟩ (some S)) (some S)).out
        = (write_string ⟨.compressed, [], pre⟩ (some S)).out
            ++ write_varint S.length
            ++ write_varint
                ((write_string ⟨.compressed, [], pre⟩ (some S)).out.length
                  + (write_varint S.length).length
                  - (pre.length + (write_varint S.length).length + 1))
    ∧ 0 < (write_string ⟨.compressed, [], pre⟩ (some S)).out.length
            + (write_varint S.length).length
            - (pre.length + (write_varint S.length).length + 1)
    ∧ read_string (write_string (write_string ⟨.compressed, [], pre⟩ (some S)) (some S)).out
          pre.length ⟨[], [], 0, 0⟩
        = .ok (some S,
            pre.length + (write_varint S.length).length + 1 + S.length,
            ⟨[(pre.length + (write_varint S.length).length + 1, S)], [S], 0, 0⟩)
    ∧ read_string (write_string (write_string ⟨.compressed, [], pre⟩ (some S)) (some S)).out
          (pre.length + (write_varint S.length).length + 1 + S.length)
          ⟨[(pre.length + (write_varint S.length).length + 1, S)], [S], 0, 0⟩
        = .ok (some S,
            (write_string (write_string ⟨.compressed, [], pre⟩ (some S)) (some S)).out.length,
            ⟨[(pre.length + (write_varint S.length).length + 1, S)], [S], 1, 0⟩)
    ∧ (write_string ⟨.expanded, [], pre⟩ (some S)).out
        = pre ++ write_varint S.length ++ [0] ++ S
    ∧ (write_string (write_string ⟨.expanded, [], pre⟩ (some S)) (some S)).out
        = (write_string ⟨.expanded, [], pre⟩ (some S)).out ++ write_varint S.length ++ [0] ++ S := by
  have hL : S.length ≠ 0 := fun h => hS (List.length_eq_zero.mp h)
  have hα : (write_varint S.length).length ≤ 4 := by
    have := write_varint_length_le 3 S.length (by norm_num at hbound ⊢; omega)
    omega
  have hαpos : 0 < (write_varint S.length).length := write_varint_length_pos _
  have hst1 : write_string ⟨.compressed, [], pre⟩ (some S)
      = ⟨.compressed, [(S, pre.length + (write_varint S.length).length + 1)],
         pre ++ write_varint S.length ++ [0] ++ S⟩ := by
    have := write_string_first ⟨.compressed, [], pre⟩ S rfl rfl
    simpa using this
  have hlook1 : ([(S, pre.length + (write_varint S.length).length + 1)] :
      List (List Nat × Nat)).lookup S = some (pre.length + (write_varint S.length).length + 1) := by
    simp [List.lookup]
  have hlen1 : (pre ++ write_varint S.length ++ [0] ++ S).length
      = pre.length + (write_varint S.length).length + 1 + S.length := by
    simp [List.length_append]
    omega
  have hD : (pre ++ write_varint S.length ++ [0] ++ S).length + (write_varint S.length).length
      - (pre.length + (write_varint S.length).length + 1)
      = S.length + (write_varint S.length).length := by
    rw [hlen1]
    omega
  have hst2 : write_string (write_string ⟨.compressed, [], pre⟩ (some S)) (some S)
      = ⟨.compressed, [(S, pre.length + (write_varint S.length).length + 1)],
         (pre ++ write_varint S.length ++ [0] ++ S) ++ write_varint S.length
           ++ write_varint (S.length + (write_varint S.length).length)⟩ := by
    rw [hst1]
    have := write_string_repeat
      ⟨.compressed, [(S, pre.length + (write_varint S.length).length + 1)],
       pre ++ write_varint S.length ++ [0] ++ S⟩ S
      (pre.length + (write_varint S.length).length + 1) rfl hlook1
    rw [this, hD]
  have hDbound : S.length + (write_varint S.length).length < 2 ^ 28 := by
    norm_num at hbound ⊢; omega
  have hDlen : (write_varint (S.length + (write_varint S.length).length)).length ≤ 4 := by
    have := write_varint_length_le 3 (S.length + (write_varint S.length).length)
      (by norm_num at hDbound ⊢; omega)
    omega
  refine ⟨by rw [hst1], by rw [hst1], ?_, ?_, ?_, ?_, ?_, ?_⟩
  · rw [hst2, hst1]
    simp only [hD]
  · rw [hst1]
    show 0 < (pre ++ write_varint S.length ++ [0] ++ S).length + (write_varint S.length).length
        - (pre.length + (write_varint S.length).length + 1)
    rw [hlen1]
    omega
  · -- first read: first-occurrence resolution
    rw [hst2]
    show read_string ((pre ++ write_varint S.length ++ [0] ++ S) ++ write_varint S.length
        ++ write_varint (S.length + (write_varint S.length).length)) pre.length ⟨[], [], 0, 0⟩ = _
    have hv1 : read_varint ((pre ++ write_varint S.length ++ [0] ++ S) ++ write_varint S.length
        ++ write_varint (S.length + (write_varint S.length).length)) pre.length
        = .ok (S.length, pre.length + (write_varint S.length).length) := by
      have hform : (pre ++ write_varint S.length ++ [0] ++ S) ++ write_varint S.length
          ++ write_varint (S.length + (write_varint S.length).length)
          = pre ++ (write_varint S.length ++ ([0] ++ (S ++ (write_varint S.length
              ++ write_varint (S.length + (write_varint S.length).length))))) := by
        simp [List.append_assoc]
      have hgo := read_varint_go_write S.length 0 0 0 pre
        ([0] ++ (S ++ (write_varint S.length
          ++ write_varint (S.length + (write_varint S.length).length)))) (by omega) (by norm_num)
      simp only [Nat.pow_zero, Nat.mul_one, Nat.zero_add] at hgo
      rw [read_varint, hform]
      exact hgo
    have hv2 : read_varint ((pre ++ write_varint S.length ++ [0] ++ S) ++ write_varint S.length
        ++ write_varint (S.length + (write_varint S.length).length))
        (pre.length + (write_varint S.length).length)
        = .ok (0, pre.length + (write_varint S.length).length + 1) := by
      have hform : (pre ++ write_varint S.length ++ [0] ++ S) ++ write_varint S.length
          ++ write_varint (S.length + (write_varint S.length).length)
          = (pre ++ write_varint S.length) ++ (write_varint 0 ++ (S ++ (write_varint S.length
              ++ write_varint (S.length + (write_varint S.length).length)))) := by
        rw [write_varint_lt 0 (by norm_num)]
        simp [List.append_assoc]
      have hgo := read_varint_go_write 0 0 0 0 (pre ++ write_varint S.length)
        (S ++ (write_varint S.length ++ write_varint (S.length + (write_varint S.length).length)))
        (by rw [write_varint_lt 0 (by norm_num)]; simp) (by norm_num)
      rw [write_varint_lt 0 (by norm_num)] at hgo
      simp only [List.length_cons, List.length_nil, Nat.pow_zero,
        Nat.mul_one, Nat.zero_add, Nat.add_zero] at hgo
      rw [read_varint, hform]
      have hplen : pre.length + (write_varint S.length).length
          = (pre ++ write_varint S.length).length := by
        simp
      rw [hplen]
      rw [write_varint_lt 0 (by norm_num)]
      exact hgo
    have hdrop : ((((pre ++ write_varint S.length ++ [0] ++ S) ++ write_varint S.length
        ++ write_varint (S.length + (write_varint S.length).length)).drop
          (pre.length + (write_varint S.length).length + 1)).take S.length) = S := by
      have hform : (pre ++ write_varint S.length ++ [0] ++ S) ++ write_varint S.length
          ++ write_varint (S.length + (write_varint S.length).length)
          = (pre ++ write_varint S.length ++ [0]) ++ (S ++ (write_varint S.length
              ++ write_varint (S.length + (write_varint S.length).length))) := by
        simp [List.append_assoc]
      have hplen : pre.length + (write_varint S.length).length + 1
          = (pre ++ write_varint S.length ++ [0]).length := by
        simp only [List.length_append, List.length_cons, List.length_nil]
      rw [hform, hplen, List.drop_left]
      exact List.take_left S _
    have happ := read_string_first_occurrence
      ((pre ++ write_varint S.length ++ [0] ++ S) ++ write_varint S.length
        ++ write_varint (S.length + (write_varint S.length).length))
      pre.length ⟨[], [], 0, 0⟩ S.length (pre.length + (write_varint S.length).length)
      (pre.length + (write_varint S.length).length + 1)
      hv1 hL hv2 (by rw [hdrop]; simp)
    rw [hdrop] at happ
    exact happ
  · -- second read: back-reference resolution
    rw [hst2]
    show read_string ((pre ++ write_varint S.length ++ [0] ++ S) ++ write_varint S.length
        ++ write_varint (S.length + (write_varint S.length).length))
        (pre.length + (write_varint S.length).length + 1 + S.length) _ = _
    have hlen1 : (pre ++ write_varint S.length ++ [0] ++ S).length
        = pre.length + (write_varint S.length).length + 1 + S.length := by
      simp [List.length_append]
      omega
    have hv3 : read_varint ((pre ++ write_varint S.length ++ [0] ++ S) ++ write_varint S.length
        ++ write_varint (S.length + (write_varint S.length).length))
        (pre.length + (write_varint S.length).length + 1 + S.length)
        = .ok (S.length, pre.length + (write_varint S.length).length + 1 + S.length
            + (write_varint S.length).length) := by
      have hform : (pre ++ write_varint S.length ++ [0] ++ S) ++ write_varint S.length
          ++ write_varint (S.length + (write_varint S.length).length)
          = (pre ++ write_varint S.length ++ [0] ++ S) ++ (write_varint S.length
              ++ write_varint (S.length + (write_varint S.length).length)) := by
        simp [List.append_assoc]
      have hgo := read_varint_go_write S.length 0 0 0 (pre ++ write_varint S.length ++ [0] ++ S)
        (write_varint (S.length + (write_varint S.length).length)) (by omega) (by norm_num)
      simp only [Nat.pow_zero, Nat.mul_one, Nat.zero_add] at hgo
      rw [hlen1] at hgo
      rw [read_varint, hform]
      exact hgo
    have hv4 : read_varint ((pre ++ write_varint S.length ++ [0] ++ S) ++ write_varint S.length
        ++ write_varint (S.length + (write_varint S.length).length))
        (pre.length + (write_varint S.length).length + 1 + S.length + (write_varint S.length).length)
        = .ok (S.length + (write_varint S.length).length,
            ((pre ++ write_varint S.length ++ [0] ++ S) ++ write_varint S.length
              ++ write_varint (S.length + (write_varint S.length).length)).length) := by
      have hform : (pre ++ write_varint S.length ++ [0] ++ S) ++ write_varint S.length
          ++ write_varint (S.length + (write_varint S.length).length)
          = ((pre ++ write_varint S.length ++ [0] ++ S) ++ write_varint S.length)
              ++ (write_varint (S.length + (write_varint S.length).length) ++ []) := by
        simp
      have hgo := read_varint_go_write (S.length + (write_varint S.length).length) 0 0 0
        ((pre ++ write_varint S.length ++ [0] ++ S) ++ write_varint S.length) []
        (by omega) (by norm_num)
      simp only [Nat.pow_zero, Nat.mul_one, Nat.zero_add] at hgo
      have hplen2 : ((pre ++ write_varint S.length ++ [0] ++ S) ++ write_varint S.length).length
          = pre.length + (write_varint S.length).length + 1 + S.length
              + (write_varint S.length).length := by
        simp [List.length_append]
        omega
      rw [hplen2] at hgo
      have hplen3 : ((pre ++ write_varint S.length ++ [0] ++ S) ++ write_varint S.length
          ++ write_varint (S.length + (write_varint S.length).length)).length
          = pre.length + (write_varint S.length).length + 1 + S.length
              + (write_varint S.length).length
              + (write_varint (S.length + (write_varint S.length).length)).length := by
        simp [List.length_append]
        omega
      rw [hplen3, read_varint, hform]
      exact hgo
    have htarget : pre.length + (write_varint S.length).length + 1 + S.length
        + (write_varint S.length).length - (S.length + (write_varint S.length).length)
        = pre.length + (write_varint S.length).length + 1 := by
      omega
    have hlook2 : ([(pre.length + (write_varint S.length).length + 1, S)] :
        List (Nat × List Nat)).lookup
          (pre.length + (write_varint S.length).length + 1 + S.length
            + (write_varint S.length).length - (S.length + (write_varint S.length).length))
        = some S := by
      rw [htarget]; simp [List.lookup]
    have happ := read_string_backref
      ((pre ++ write_varint S.length ++ [0] ++ S) ++ write_varint S.length
        ++ write_varint (S.length + (write_varint S.length).length))
      (pre.length + (write_varint S.length).length + 1 + S.length)
      ⟨[(pre.length + (write_varint S.length).length + 1, S)], [S], 0, 0⟩
      S.length
      (pre.length + (write_varint S.length).length + 1 + S.length + (write_varint S.length).length)
      (S.length + (write_varint S.length).length)
      (((pre ++ write_varint S.length ++ [0] ++ S) ++ write_varint S.length
        ++ write_varint (S.length + (write_varint S.length).length)).length)
      S hv3 hL hv4 (by omega) hlook2 rfl
    exact happ
  · rw [write_string_expanded ⟨.expanded, [], pre⟩ S rfl]
  · rw [write_string_expanded ⟨.expanded, [], pre⟩ S rfl,
       write_string_expanded ⟨.expanded, [], pre ++ write_varint S.length ++ [0] ++ S⟩ S rfl]

/-- Witness for C5 with `pre = [9]` and content `[65, 66]`. -/
theorem string_backref_roundtrip_witness :
    (write_string ⟨.compressed, [], [9]⟩ (some [65, 66])).out
        = [9] ++ write_varint [65, 66].length ++ [0] ++ [65, 66]
    ∧ (write_string ⟨.compressed, [], [9]⟩ (some [65, 66])).string_write_lookup
        = [([65, 66], [9].length + (write_varint [65, 66].length).length + 1)]
    ∧ (write_string (write_string ⟨.compressed, [], [9]⟩ (some [65, 66])) (some [65, 66])).out
        = (write_string ⟨.compressed, [], [9]⟩ (some [65, 66])).out
            ++ write_varint [65, 66].length
            ++ write_varint
                ((write_string ⟨.compressed, [], [9]⟩ (some [65, 66])).out.length
                  + (write_varint [65, 66].length).length
                  - ([9].length + (write_varint [65, 66].length).length + 1))
    ∧ 0 < (write_string ⟨.compressed, [], [9]⟩ (some [65, 66])).out.length
            + (write_varint [65, 66].length).length
            - ([9].length + (write_varint [65, 66].length).length + 1)
    ∧ read_string (write_string (write_string ⟨.compressed, [], [9]⟩ (some [65, 66])) (some [65, 66])).out
          [9].length ⟨[], [], 0, 0⟩
        = .ok (some [65, 66],
            [9].length + (write_varint [65, 66].length).length + 1 + [65, 66].length,
            ⟨[([9].length + (write_varint [65, 66].length).length + 1, [65, 66])], [[65, 66]], 0, 0⟩)
    ∧ read_string (write_string (write_string ⟨.compressed, [], [9]⟩ (some [65, 66])) (some [65, 66])).out
          ([9].length + (write_varint [65, 66].length).length + 1 + [65, 66].length)
          ⟨[([9].length + (write_varint [65, 66].length).length + 1, [65, 66])], [[65, 66]], 0, 0⟩
        = .ok (some [65, 66],
            (write_string (write_string ⟨.compressed, [], [9]⟩ (some [65, 66])) (some [65, 66])).out.length,
            ⟨[([9].length + (write_varint [65, 66].length).length + 1, [65, 66])], [[65, 66]], 1, 0⟩)
    ∧ (write_string ⟨.expanded, [], [9]⟩ (some [65, 66])).out
        = [9] ++ write_varint [65, 66].length ++ [0] ++ [65, 66]
    ∧ (write_string (write_string ⟨.expanded, [], [9]⟩ (some [65, 66])) (some [65, 66])).out
        = (write_string ⟨.expanded, [], [9]⟩ (some [65, 66])).out
            ++ write_varint [65, 66].length ++ [0] ++ [65, 66] :=
  string_backref_roundtrip [9] [65, 66] (by decide) (by norm_num)

/-- C1: whenever the constructor returns a document (instead of raising),
re-encoding it in the string-storage mode detected from the buffer reproduces
the buffer byte-for-byte, and the mode is exactly the detection guess made
from the read counters. -/
theorem load_roundtrip_guard {Doc PErr : Type}
    (parse : List Nat → Except PErr (Doc × Nat × Nat))
    (prep_write_data : Doc → StringStorage → List Nat)
    (data : List Nat) (doc : Doc) (storage : StringStorage)
    (h : savefile_init parse prep_write_data data = .ok (doc, storage)) :
    prep_write_data doc storage = data
      ∧ ∃ refs dups, parse data = .ok (doc, refs, dups)
          ∧ storage = get_string_storage_guess refs dups := by
  unfold savefile_init at h
  cases hp : parse data with
  | error e => simp only [hp] at h; exact absurd h (by simp)
  | ok res =>
    obtain ⟨d, refs, dups⟩ := res
    simp only [hp] at h
    by_cases hne : data ≠ prep_write_data d (get_string_storage_guess refs dups)
    · rw [if_pos hne] at h; exact absurd h (by simp)
    · rw [if_neg hne] at h
      push_neg at hne
      simp only [Except.ok.injEq, Prod.mk.injEq] at h
      obtain ⟨h1, h2⟩ := h
      subst h1; subst h2
      exact ⟨hne.symm, refs, dups, rfl, rfl⟩

/-- Witness for C1 with a trivial one-document parser whose re-encoding
matches the input. -/
theorem load_roundtrip_guard_witness :
    (fun (_ : Unit) (_ : StringStorage) => [1, 2, 3]) () StringStorage.compressed = [1, 2, 3]
      ∧ ∃ refs dups,
          (fun (_ : List Nat) => (.ok ((), 1, 0) : Except Unit (Unit × Nat × Nat))) [1, 2, 3]
              = .ok ((), refs, dups)
            ∧ StringStorage.compressed = get_string_storage_guess refs dups :=
  load_roundtrip_guard
    (fun _ => .ok ((), 1, 0)) (fun _ _ => [1, 2, 3]) [1, 2, 3] () .compressed
    (by simp [savefile_init, get_string_storage_guess])

lemma crc32_bit_lt (c : Nat) (h : c < 2 ^ 32) : crc32_bit c < 2 ^ 32 := by
  unfold crc32_bit
  split
  · exact Nat.xor_lt_two_pow (by rw [Nat.shiftRight_eq_div_pow]; omega) (by norm_num)
  · rw [Nat.shiftRight_eq_div_pow]; omega

lemma crc32_byte_lt (c b : Nat) (h : c < 2 ^ 32) : crc32_byte c b < 2 ^ 32 := by
  unfold crc32_byte
  have hx : c ^^^ (b &&& 0xFF) < 2 ^ 32 := by
    refine Nat.xor_lt_two_pow h ?_
    have := Nat.and_pow_two_sub_one_eq_mod b 8
    norm_num at this
    rw [this]
    have := Nat.mod_lt b (y := 256) (by norm_num)
    omega
  have : ∀ k x, x < 2 ^ 32 → crc32_bit^[k] x < 2 ^ 32 := by
    intro k
    induction k with
    | zero => intro x hx; simpa using hx
    | succ k ih =>
      intro x hx
      rw [Function.iterate_succ_apply]
      exact ih _ (crc32_bit_lt x hx)
  exact this 8 _ hx

lemma crc32_foldl_lt (data : List Nat) :
    ∀ init, init < 2 ^ 32 → data.foldl crc32_byte init < 2 ^ 32 := by
  induction data with
  | nil => intro init h; simpa using h
  | cons b rest ih =>
    intro init h
    simp only [List.foldl_cons]
    exact ih _ (crc32_byte_lt init b h)

lemma crc32_lt (data : List Nat) : crc32 data < 2 ^ 32 := by
  unfold crc32
  exact Nat.xor_lt_two_pow (crc32_foldl_lt data 0xFFFFFFFF (by norm_num)) (by norm_num)

/-- Reading back the four bytes `write_uint32` produced, at any position. -/
lemma read_uint32_write (prefix1 suffix : List Nat) (v : Nat) (hv : v < 2 ^ 32) :
    read_uint32 (prefix1 ++ (write_uint32 v ++ suffix)) prefix1.length
      = .ok (v, prefix1.length + 4) := by
  have h0 : (prefix1 ++ (write_uint32 v ++ suffix))[prefix1.length]? = some (v % 256) := by
    rw [List.getElem?_append_right (Nat.le_refl _)]
    simp [write_uint32]
  have h1 : (prefix1 ++ (write_uint32 v ++ suffix))[prefix1.length + 1]? = some ((v >>> 8) % 256) := by
    rw [List.getElem?_append_right (by omega)]
    simp [write_uint32]
  have h2 : (prefix1 ++ (write_uint32 v ++ suffix))[prefix1.length + 2]? = some ((v >>> 16) % 256) := by
    rw [List.getElem?_append_right (by omega)]
    simp [write_uint32]
  have h3 : (prefix1 ++ (write_uint32 v ++ suffix))[prefix1.length + 3]? = some ((v >>> 24) % 256) := by
    rw [List.getElem?_append_right (by omega)]
    simp [write_uint32]
  rw [read_uint32, h0, h1, h2, h3]
  simp only [Except.ok.injEq, Prod.mk.injEq]
  refine ⟨?_, trivial⟩
  simp only [Nat.shiftRight_eq_div_pow]
  norm_num
  omega

/-- C2: every buffer produced by the encoder stores at bytes 5-8 the
little-endian uint32 CRC-32 of bytes 9..EOF of that same buffer, whatever the
record tree serialized to (i.e. after any sequence of mutations). -/
theorem checksum_stored (version : Nat) (payload : List Nat) (hv : version < 256) :
    read_uint32 (prep_write_data_frame version payload) 5
        = .ok (crc32 ((prep_write_data_frame version payload).drop 9), 9)
      ∧ (prep_write_data_frame version payload).drop 9 = payload := by
  have hstruct : prep_write_data_frame version payload
      = [0x53, 0x57, 0x48, 0x32, version] ++ (write_uint32 (crc32 payload) ++ payload) := by
    simp only [prep_write_data_frame]
    have hform : [0x53, 0x57, 0x48, 0x32] ++ [version] ++ write_uint32 0 ++ payload
        = ([0x53, 0x57, 0x48, 0x32, version] ++ write_uint32 0) ++ payload := by
      simp
    have hdrop : ([0x53, 0x57, 0x48, 0x32] ++ [version] ++ write_uint32 0 ++ payload).drop 9
        = payload := by
      rw [hform, List.drop_left' (by simp [write_uint32])]
    have htake : ([0x53, 0x57, 0x48, 0x32] ++ [version] ++ write_uint32 0 ++ payload).take 5
        = [0x53, 0x57, 0x48, 0x32, version] := by
      have hform5 : [0x53, 0x57, 0x48, 0x32] ++ [version] ++ write_uint32 0 ++ payload
          = [0x53, 0x57, 0x48, 0x32, version] ++ (write_uint32 0 ++ payload) := by
        simp
      rw [hform5, List.take_left' (by simp)]
    rw [hdrop, htake]
    simp [List.append_assoc]
  have hdrop9 : (prep_write_data_frame version payload).drop 9 = payload := by
    rw [hstruct]
    have : [0x53, 0x57, 0x48, 0x32, version] ++ (write_uint32 (crc32 payload) ++ payload)
        = ([0x53, 0x57, 0x48, 0x32, version] ++ write_uint32 (crc32 payload)) ++ payload := by
      simp
    rw [this, List.drop_left' (by simp [write_uint32])]
  refine ⟨?_, hdrop9⟩
  rw [hdrop9, hstruct]
  have h := read_uint32_write [0x53, 0x57, 0x48, 0x32, version] payload (crc32 payload)
    (crc32_lt payload)
  norm_num at h
  exact h

/-- Witness for C2 at `version = 1`, `payload = [5]`. -/
theorem checksum_stored_witness :
    read_uint32 (prep_write_data_frame 1 [5]) 5
        = .ok (crc32 ((prep_write_data_frame 1 [5]).drop 9), 9)
      ∧ (prep_write_data_frame 1 [5]).drop 9 = [5] :=
  checksum_stored 1 [5] (by norm_num)

/-- C9: `reveal()` then `hide()` yields the fully-clouded bitmap (every bit of
every byte set, i.e. cloud present everywhere), `reveal()` zeroes every bit of
the stored map bitmap, and neither operation touches the size fields or any
other field of the record. -/
theorem fog_reveal_hide (w : WorldCloudData) :
    (w.reveal.hide).data = List.replicate WorldCloudData.MAP_DATA_SIZE 0xFF
      ∧ (∀ b ∈ (w.reveal.hide).data, ∀ i < 8, b.testBit i = true)
      ∧ (∀ b ∈ w.reveal.data, b = 0)
      ∧ (∀ b ∈ w.reveal.data, ∀ i, b.testBit i = false)
      ∧ w.reveal.data.length = WorldCloudData.MAP_DATA_SIZE
      ∧ w.reveal.zero = w.zero ∧ w.reveal.unknown_1 = w.unknown_1
      ∧ w.reveal.size_x = w.size_x ∧ w.reveal.size_y = w.size_y
      ∧ w.hide.zero = w.zero ∧ w.hide.unknown_1 = w.unknown_1
      ∧ w.hide.size_x = w.size_x ∧ w.hide.size_y = w.size_y := by
  refine ⟨rfl, ?_, ?_, ?_, by simp [WorldCloudData.reveal],
    rfl, rfl, rfl, rfl, rfl, rfl, rfl, rfl⟩
  · intro b hb
    have hb255 := List.eq_of_mem_replicate hb
    subst hb255
    decide
  · intro b hb
    exact List.eq_of_mem_replicate hb
  · intro b hb i
    have hb0 := List.eq_of_mem_replicate hb
    subst hb0
    exact Nat.zero_testBit i

/-- Witness for C9 on a concrete record. -/
theorem fog_reveal_hide_witness :
    ((⟨0, 1, 270, 290, [7]⟩ : WorldCloudData).reveal.hide).data
        = List.replicate WorldCloudData.MAP_DATA_SIZE 0xFF
      ∧ (∀ b ∈ ((⟨0, 1, 270, 290, [7]⟩ : WorldCloudData).reveal.hide).data,
          ∀ i < 8, b.testBit i = true)
      ∧ (∀ b ∈ (⟨0, 1, 270, 290, [7]⟩ : WorldCloudData).reveal.data, b = 0)
      ∧ (∀ b ∈ (⟨0, 1, 270, 290, [7]⟩ : WorldCloudData).reveal.data,
          ∀ i, b.testBit i = false)
      ∧ (⟨0, 1, 270, 290, [7]⟩ : WorldCloudData).reveal.data.length
          = WorldCloudData.MAP_DATA_SIZE
      ∧ (⟨0, 1, 270, 290, [7]⟩ : WorldCloudData).reveal.zero = 0
      ∧ (⟨0, 1, 270, 290, [7]⟩ : WorldCloudData).reveal.unknown_1 = 1
      ∧ (⟨0, 1, 270, 290, [7]⟩ : WorldCloudData).reveal.size_x = 270
      ∧ (⟨0, 1, 270, 290, [7]⟩ : WorldCloudData).reveal.size_y = 290
      ∧ (⟨0, 1, 270, 290, [7]⟩ : WorldCloudData).hide.zero = 0
      ∧ (⟨0, 1, 270, 290, [7]⟩ : WorldCloudData).hide.unknown_1 = 1
      ∧ (⟨0, 1, 270, 290, [7]⟩ : WorldCloudData).hide.size_x = 270
      ∧ (⟨0, 1, 270, 290, [7]⟩ : WorldCloudData).hide.size_y = 290 :=
  fog_reveal_hide ⟨0, 1, 270, 290, [7]⟩

lemma bind_ne_inMission {α β : Type} {x : Except CodecError α} {f : α → Except CodecError β}
    (hx : x ≠ .error .inMissionSavegame) (hf : ∀ a, f a ≠ .error .inMissionSavegame) :
    x >>= f ≠ .error .inMissionSavegame := by
  cases x with
  | error e =>
    intro h
    have hred : ((Except.error e : Except CodecError α) >>= f)
        = (Except.error e : Except CodecError β) := rfl
    rw [hred] at h
    injection h with h
    exact hx (by rw [h])
  | ok a =>
    have hred : ((Except.ok a : Except CodecError α) >>= f) = f a := rfl
    rw [hred]
    exact hf a

lemma read_uint8_ne_inMission (buf : List Nat) (pos : Nat) :
    read_uint8 buf pos ≠ .error .inMissionSavegame := by
  unfold read_uint8
  split <;> simp

lemma read_uint32_ne_inMission (buf : List Nat) (pos : Nat) :
    read_uint32 buf pos ≠ .error .inMissionSavegame := by
  unfold read_uint32
  split <;> simp

lemma check_chunk_header_ne_inMission (buf : List Nat) (pos : Nat) (expected : List Nat) :
    check_chunk_header buf pos expected ≠ .error .inMissionSavegame := by
  unfold check_chunk_header
  split
  split <;> simp

lemma read_varint_go_ne_inMission (buf : List Nat) :
    ∀ k iter data shift pos, 4 - iter ≤ k →
      read_varint_go buf iter data shift pos ≠ .error .inMissionSavegame := by
  intro k
  induction k with
  | zero =>
    intro iter data shift pos h
    rw [read_varint_go]
    have h4 : iter ≥ 4 := by omega
    simp [h4]
  | succ k ih =>
    intro iter data shift pos h
    rw [read_varint_go]
    by_cases h4 : iter ≥ 4
    · simp [h4]
    · simp only [h4, if_false]
      cases hget : buf[pos]? with
      | none => simp
      | some b =>
        by_cases hb : b &&& 0x80 = 0x80
        · simp only [hb, if_pos rfl]
          exact ih (iter + 1) _ (shift + 7) (pos + 1) (by omega)
        · simp [hb]

lemma read_varint_ne_inMission (buf : List Nat) (pos : Nat) :
    read_varint buf pos ≠ .error .inMissionSavegame :=
  read_varint_go_ne_inMission buf 4 0 0 0 pos (by omega)

lemma read_string_ne_inMission (buf : List Nat) (pos : Nat) (st : ReadStringState) :
    read_string buf pos st ≠ .error .inMissionSavegame := by
  unfold read_string
  generalize hv : read_varint buf pos = r1
  cases r1 with
  | error e =>
    intro h
    simp at h
    subst h
    exact read_varint_ne_inMission buf pos hv
  | ok res =>
    obtain ⟨strlen, pos1⟩ := res
    dsimp only
    by_cases hz : strlen = 0
    · subst hz; simp
    · simp only [if_neg hz]
      generalize hv2 : read_varint buf pos1 = r2
      cases r2 with
      | error e =>
        intro h
        simp at h
        subst h
        exact read_varint_ne_inMission buf pos1 hv2
      | ok res2 =>
        obtain ⟨second, pos2⟩ := res2
        dsimp only
        by_cases hs : second = 0
        · subst hs
          simp only [eq_self_iff_true, if_true]
          split <;> simp
        · simp only [if_neg hs]
          generalize st.string_read_lookup.lookup (pos1 - second) = r3
          cases r3 with
          | some dest =>
            dsimp only
            split <;> simp
          | none => simp

lemma read_string_list_ne_inMission (buf : List Nat) :
    ∀ (n pos : Nat) (st : ReadStringState),
      read_string_list buf n pos st ≠ .error .inMissionSavegame := by
  intro n
  induction n with
  | zero => intro pos st; simp [read_string_list]
  | succ n ih =>
    intro pos st
    rw [read_string_list]
    generalize hs : read_string buf pos st = r1
    cases r1 with
    | error e =>
      intro h
      simp at h
      subst h
      exact read_string_ne_inMission buf pos st hs
    | ok res =>
      obtain ⟨s, pos1, st1⟩ := res
      dsimp only
      generalize hrec : read_string_list buf n pos1 st1 = r2
      cases r2 with
      | error e =>
        intro h
        simp at h
        subst h
        exact ih pos1 st1 hrec
      | ok res2 => simp

lemma read_uint32_list_ne_inMission (buf : List Nat) :
    ∀ n pos, read_uint32_list buf n pos ≠ .error .inMissionSavegame := by
  intro n
  induction n with
  | zero => intro pos; simp [read_uint32_list]
  | succ n ih =>
    intro pos
    rw [read_uint32_list]
    generalize hv : read_uint32 buf pos = r1
    cases r1 with
    | error e =>
      intro h
      simp at h
      subst h
      exact read_uint32_ne_inMission buf pos hv
    | ok res =>
      obtain ⟨v, pos1⟩ := res
      dsimp only
      generalize hrec : read_uint32_list buf n pos1 = r2
      cases r2 with
      | error e =>
        intro h
        simp at h
        subst h
        exact ih pos1 hrec
      | ok res2 => simp

lemma read_uint32_pairs_ne_inMission (buf : List Nat) :
    ∀ n pos, read_uint32_pairs buf n pos ≠ .error .inMissionSavegame := by
  intro n
  induction n with
  | zero => intro pos; simp [read_uint32_pairs]
  | succ n ih =>
    intro pos
    rw [read_uint32_pairs]
    generalize hv : read_uint32 buf pos = r1
    cases r1 with
    | error e =>
      intro h
      simp at h
      subst h
      exact read_uint32_ne_inMission buf pos hv
    | ok res =>
      obtain ⟨one, pos1⟩ := res
      dsimp only
      generalize hv2 : read_uint32 buf pos1 = r2
      cases r2 with
      | error e =>
        intro h
        simp at h
        subst h
        exact read_uint32_ne_inMission buf pos1 hv2
      | ok res2 =>
        obtain ⟨two, pos2⟩ := res2
        dsimp only
        generalize hrec : read_uint32_pairs buf n pos2 = r3
        cases r3 with
        | error e =>
          intro h
          simp at h
          subst h
          exact ih pos2 hrec
        | ok res3 => simp

lemma parse_difficulty_ne_inMission (buf : List Nat) (pos : Nat) :
    parse_difficulty buf pos ≠ .error .inMissionSavegame := by
  unfold parse_difficulty
  generalize hc : check_chunk_header buf pos difcTag = r1
  cases r1 with
  | error e =>
    intro h
    simp at h
    subst h
    exact check_chunk_header_ne_inMission buf pos difcTag hc
  | ok pos1 =>
    dsimp only
    generalize hu : read_uint8 buf pos1 = r2
    cases r2 with
    | error e =>
      intro h
      simp at h
      subst h
      exact read_uint8_ne_inMission buf pos1 hu
    | ok res =>
      obtain ⟨unknown, pos2⟩ := res
      dsimp only
      generalize hl : read_uint32_list buf 8 pos2 = r3
      cases r3 with
      | error e =>
        intro h
        simp at h
        subst h
        exact read_uint32_list_ne_inMission buf 8 pos2 hl
      | ok res2 => simp

lemma parse_missionData_pre_ne_inMission (buf : List Nat) (pos : Nat) (st : ReadStringState) :
    parse_missionData_pre buf pos st ≠ .error .inMissionSavegame := by
  unfold parse_missionData_pre
  apply bind_ne_inMission (check_chunk_header_ne_inMission buf pos msnDTag)
  intro pos1
  apply bind_ne_inMission (read_uint8_ne_inMission buf pos1)
  rintro ⟨flag, pos2⟩
  apply bind_ne_inMission (read_string_ne_inMission buf pos2 st)
  rintro ⟨location, pos3, st3⟩
  apply bind_ne_inMission (read_string_ne_inMission buf pos3 st3)
  rintro ⟨another, pos4, st4⟩
  apply bind_ne_inMission (read_uint8_ne_inMission buf pos4)
  rintro ⟨u1, pos5⟩
  apply bind_ne_inMission (read_uint8_ne_inMission buf pos5)
  rintro ⟨u2, pos6⟩
  apply bind_ne_inMission (read_uint8_ne_inMission buf pos6)
  rintro ⟨u3, pos7⟩
  apply bind_ne_inMission (read_uint8_ne_inMission buf pos7)
  rintro ⟨u4, pos8⟩
  apply bind_ne_inMission (read_uint8_ne_inMission buf pos8)
  rintro ⟨m1, pos9⟩
  apply bind_ne_inMission (read_uint8_ne_inMission buf pos9)
  rintro ⟨m2, pos10⟩
  simp [pure, Except.pure]

lemma parse_missionData_rest_ne_inMission (buf : List Nat) (pos : Nat) (st : ReadStringState)
    (pre : MissionDataPre) :
    parse_missionData_rest buf pos st pre ≠ .error .inMissionSavegame := by
  unfold parse_missionData_rest
  apply bind_ne_inMission (read_uint8_ne_inMission buf pos)
  rintro ⟨u5, p1⟩
  apply bind_ne_inMission (read_varint_ne_inMission buf p1)
  rintro ⟨ncrew, p2⟩
  apply bind_ne_inMission (read_string_list_ne_inMission buf ncrew p2 st)
  rintro ⟨crew, p3, st3⟩
  apply bind_ne_inMission (read_uint8_ne_inMission buf p3)
  rintro ⟨u6, p4⟩
  apply bind_ne_inMission (read_uint8_ne_inMission buf p4)
  rintro ⟨u7, p5⟩
  apply bind_ne_inMission (read_uint32_ne_inMission buf p5)
  rintro ⟨s1, p6⟩
  apply bind_ne_inMission (read_uint32_ne_inMission buf p6)
  rintro ⟨s2, p7⟩
  apply bind_ne_inMission (read_uint32_ne_inMission buf p7)
  rintro ⟨s3, p8⟩
  apply bind_ne_inMission (read_uint32_ne_inMission buf p8)
  rintro ⟨s4, p9⟩
  apply bind_ne_inMission (read_uint8_ne_inMission buf p9)
  rintro ⟨z1, p10⟩
  apply bind_ne_inMission (read_uint8_ne_inMission buf p10)
  rintro ⟨z2, p11⟩
  apply bind_ne_inMission (read_uint8_ne_inMission buf p11)
  rintro ⟨z3, p12⟩
  apply bind_ne_inMission (read_uint8_ne_inMission buf p12)
  rintro ⟨z4, p13⟩
  apply bind_ne_inMission (read_uint8_ne_inMission buf p13)
  rintro ⟨z5, p14⟩
  apply bind_ne_inMission (read_varint_ne_inMission buf p14)
  rintro ⟨u8v, p15⟩
  apply bind_ne_inMission (parse_difficulty_ne_inMission buf p15)
  rintro ⟨difficulty, p16⟩
  apply bind_ne_inMission (read_uint8_ne_inMission buf p16)
  rintro ⟨z6, p17⟩
  apply bind_ne_inMission (read_varint_ne_inMission buf p17)
  rintro ⟨neight, p18⟩
  apply bind_ne_inMission (read_uint32_pairs_ne_inMission buf neight p18)
  rintro ⟨eight, p19⟩
  apply bind_ne_inMission (read_uint8_ne_inMission buf p19)
  rintro ⟨z7, p20⟩
  apply bind_ne_inMission (read_uint8_ne_inMission buf p20)
  rintro ⟨z8, p21⟩
  apply bind_ne_inMission (read_uint8_ne_inMission buf p21)
  rintro ⟨z9, p22⟩
  apply bind_ne_inMission (read_varint_ne_inMission buf p22)
  rintro ⟨nstr, p23⟩
  apply bind_ne_inMission (read_string_list_ne_inMission buf nstr p23 st3)
  rintro ⟨strs, p24, st24⟩
  simp [pure, Except.pure]

/-- C7: parsing the mission-state record raises the distinguished in-mission
error exactly when at least one of the two mission-related bytes is nonzero;
with both zero, parsing proceeds with the rest of the record. -/
theorem mission_state_detection (buf : List Nat) (pos : Nat) (st : ReadStringState) :
    (parse_missionData buf pos st = .error .inMissionSavegame
      ↔ ∃ pre pos1 st1, parse_missionData_pre buf pos st = .ok (pre, pos1, st1)
          ∧ (0 < pre.unknown_mission_related_1 ∨ pre.unknown_mission_related_2 ≠ 0))
    ∧ (∀ pre pos1 st1, parse_missionData_pre buf pos st = .ok (pre, pos1, st1) →
        pre.unknown_mission_related_1 = 0 → pre.unknown_mission_related_2 = 0 →
        parse_missionData buf pos st = parse_missionData_rest buf pos1 st1 pre) := by
  constructor
  · constructor
    · intro h
      unfold parse_missionData at h
      cases hp : parse_missionData_pre buf pos st with
      | error e =>
        rw [hp] at h
        exfalso
        apply parse_missionData_pre_ne_inMission buf pos st
        rw [hp]
        injection h with h
        rw [h]
      | ok res =>
        obtain ⟨pre, pos1, st1⟩ := res
        rw [hp] at h
        dsimp only at h
        by_cases hc : 0 < pre.unknown_mission_related_1 ∨ pre.unknown_mission_related_2 ≠ 0
        · exact ⟨pre, pos1, st1, rfl, hc⟩
        · rw [if_neg hc] at h
          exact absurd h (parse_missionData_rest_ne_inMission buf pos1 st1 pre)
    · rintro ⟨pre, pos1, st1, hp, hc⟩
      unfold parse_missionData
      rw [hp]
      dsimp only
      rw [if_pos hc]
  · intro pre pos1 st1 hp h1 h2
    unfold parse_missionData
    rw [hp]
    dsimp only
    rw [if_neg (by omega)]

lemma remove_skill_list_spec (cur : List String) :
    ∀ (lst sels : List String), sels.Nodup → lst.Nodup →
      (∀ s ∈ lst, s ∈ cur → s ∈ sels) →
      remove_skill_list cur lst sels
        = .ok (sels.filter (fun s => decide (¬(s ∈ lst ∧ s ∈ cur)))) := by
  intro lst
  induction lst with
  | nil =>
    intro sels _ _ _
    simp [remove_skill_list]
  | cons skill rest ih =>
    intro sels h1 h2 h3
    rw [List.nodup_cons] at h2
    rw [remove_skill_list]
    by_cases hin : skill ∈ cur
    · have hsel : skill ∈ sels := h3 skill (List.mem_cons_self _ _) hin
      rw [if_pos hin, if_pos hsel]
      have hcond : ∀ s ∈ rest, s ∈ cur → s ∈ sels.erase skill := by
        intro s hs hscur
        have hne : s ≠ skill := fun he => h2.1 (he ▸ hs)
        exact (List.mem_erase_of_ne hne).mpr (h3 s (List.mem_cons_of_mem _ hs) hscur)
      rw [ih (sels.erase skill) (h1.erase skill) h2.2 hcond]
      congr 1
      rw [h1.erase_eq_filter skill, List.filter_filter]
      apply List.filter_congr
      intro s _
      by_cases hsk : s = skill
      · subst hsk
        simp [hin]
      · simp [hsk, List.mem_cons]
    · rw [if_neg hin]
      have hcond : ∀ s ∈ rest, s ∈ cur → s ∈ sels := fun s hs hscur =>
        h3 s (List.mem_cons_of_mem _ hs) hscur
      rw [ih sels h1 h2.2 hcond]
      congr 1
      apply List.filter_congr
      intro s _
      by_cases hsk : s = skill
      · subst hsk
        simp [hin, List.mem_cons]
      · simp [hsk, List.mem_cons]

lemma range_skills_pos (skills : List (List String)) (hi lo : Nat) (hlt : lo < hi)
    (h : hi < skills.length) :
    range_skills skills hi lo = skills[hi] ++ range_skills skills (hi - 1) lo := by
  rw [range_skills, if_pos hlt, List.getElem?_eq_getElem h]
  rfl

lemma range_skills_neg (skills : List (List String)) (hi lo : Nat) (hlt : ¬lo < hi) :
    range_skills skills hi lo = [] := by
  rw [range_skills, if_neg hlt]

lemma remove_skills_spec (cur : List String) (skills : List (List String)) :
    ∀ hi lo sels, (∀ i, lo < i → i ≤ hi → i < skills.length) →
      sels.Nodup → (range_skills skills hi lo).Nodup →
      (∀ s ∈ range_skills skills hi lo, s ∈ cur → s ∈ sels) →
      remove_skills cur skills hi lo sels
        = .ok (sels.filter (fun s => decide (¬(s ∈ range_skills skills hi lo ∧ s ∈ cur)))) := by
  intro hi
  induction hi using Nat.strong_induction_on with
  | _ hi ih =>
    intro lo sels hbound h1 h2 h3
    by_cases hlt : lo < hi
    · have hhi : hi < skills.length := hbound hi hlt (Nat.le_refl hi)
      have hrange := range_skills_pos skills hi lo hlt hhi
      rw [hrange] at h2 h3
      rw [List.nodup_append] at h2
      obtain ⟨hld, hrd, hdisj⟩ := h2
      rw [remove_skills, if_pos hlt, List.getElem?_eq_getElem hhi]
      dsimp only
      rw [remove_skill_list_spec cur skills[hi] sels h1 hld
        (fun s hs hc => h3 s (List.mem_append_left _ hs) hc)]
      dsimp only
      have hsub : hi - 1 < hi := by omega
      have hbound' : ∀ i, lo < i → i ≤ hi - 1 → i < skills.length := by
        intro i hi1 hi2
        exact hbound i hi1 (by omega)
      have h1' := h1.filter (fun s => decide (¬(s ∈ skills[hi] ∧ s ∈ cur)))
      have h3' : ∀ s ∈ range_skills skills (hi - 1) lo, s ∈ cur →
          s ∈ sels.filter (fun s => decide (¬(s ∈ skills[hi] ∧ s ∈ cur))) := by
        intro s hs hscur
        rw [List.mem_filter]
        refine ⟨h3 s (List.mem_append_right _ hs) hscur, ?_⟩
        simp only [decide_eq_true_eq]
        intro hcontra
        exact hdisj hcontra.1 hs
      rw [ih (hi - 1) hsub lo _ hbound' h1' hrd h3']
      congr 1
      rw [List.filter_filter, hrange]
      apply List.filter_congr
      intro s _
      simp only [List.mem_append, Bool.and_eq_true, decide_eq_true_eq]
      by_cases ha : s ∈ skills[hi] <;> by_cases hb : s ∈ range_skills skills (hi - 1) lo <;>
        by_cases hc : s ∈ cur <;> simp [ha, hb, hc]
    · rw [remove_skills, if_neg hlt]
      rw [range_skills_neg skills hi lo hlt]
      simp

/-- C8: with a job record present and a target below the current level, the
call is a complete no-op unless `allow_downlevel` is passed; with
`allow_downlevel`, the level and XP drop to the (clamped) target and exactly
the cog selections belonging to the levels above the target and up to the
old level are removed, nothing else changing. -/
theorem job_level_to_downlevel (XP : Experience) (JOBS : String → Option JobInfo)
    (cs : CrewStatus) (job_name : String) (N : Nat)
    (job_info : JobInfo) (job : JobStatus)
    (hJ : JOBS job_name = some job_info)
    (hjob : cs.jobs.lookup job_name = some job)
    (hlt : min N XP.max_level < job.level) :
    job_level_to XP JOBS cs job_name N false = .ok cs
    ∧ (∀ (_ : ∀ i, min N XP.max_level < i → i ≤ job.level → i < job_info.skills.length)
        (_ : cs.cog_selections.Nodup)
        (_ : (range_skills job_info.skills job.level (min N XP.max_level)).Nodup),
        job_level_to XP JOBS cs job_name N true
          = .ok { cs with
              cog_selections := (cs.cog_selections.filter
                (fun s => decide (s ∉ range_skills job_info.skills job.level (min N XP.max_level)))),
              jobs := (dict_update cs.jobs job_name
                { job with
                  level := min N XP.max_level,
                  xp := XP.level_to_xp (min N XP.max_level) }) }) := by
  constructor
  · simp only [job_level_to, hJ, hjob]
    rw [if_neg (by omega), if_neg (by omega)]
    simp
  · intro hskills hnodup hrange
    simp only [job_level_to, hJ, hjob]
    rw [if_neg (by omega), if_neg (by omega)]
    simp only [if_true]
    rw [remove_skills_spec cs.cog_selections job_info.skills job.level (min N XP.max_level)
      cs.cog_selections hskills hnodup hrange (fun s hs hc => hc)]
    dsimp only
    congr 2
    apply List.filter_congr
    intro s hs
    simp [hs]

/-- Witness for C8 on a concrete crew record: `tank` at level 3 with cogs
from levels 2 and 3 selected, downlevelled to 1. -/
theorem job_level_to_downlevel_witness :
    job_level_to ⟨fun l => l * 100, 5⟩
        (fun j => if j = "tank" then some ⟨[["s0"], ["s1"], ["s2"], ["s3"]]⟩ else none)
        ⟨2, "n", [("tank", ⟨"tank", 3, 300⟩)], ["s2", "s3", "x"], 0, 0, 0⟩
        "tank" 1 false
      = .ok ⟨2, "n", [("tank", ⟨"tank", 3, 300⟩)], ["s2", "s3", "x"], 0, 0, 0⟩
    ∧ job_level_to ⟨fun l => l * 100, 5⟩
        (fun j => if j = "tank" then some ⟨[["s0"], ["s1"], ["s2"], ["s3"]]⟩ else none)
        ⟨2, "n", [("tank", ⟨"tank", 3, 300⟩)], ["s2", "s3", "x"], 0, 0, 0⟩
        "tank" 1 true
      = .ok { (⟨2, "n", [("tank", ⟨"tank", 3, 300⟩)], ["s2", "s3", "x"], 0, 0, 0⟩ : CrewStatus) with
          cog_selections := ((["s2", "s3", "x"] : List String).filter
            (fun s => decide (s ∉ range_skills [["s0"], ["s1"], ["s2"], ["s3"]] 3 (min 1 5)))),
          jobs := (dict_update [("tank", ⟨"tank", 3, 300⟩)] "tank"
            { (⟨"tank", 3, 300⟩ : JobStatus) with
              level := min 1 5,
              xp := (fun l => l * 100) (min 1 5) }) } := by
  have h := job_level_to_downlevel ⟨fun l => l * 100, 5⟩
    (fun j => if j = "tank" then some ⟨[["s0"], ["s1"], ["s2"], ["s3"]]⟩ else none)
    ⟨2, "n", [("tank", ⟨"tank", 3, 300⟩)], ["s2", "s3", "x"], 0, 0, 0⟩
    "tank" 1 ⟨[["s0"], ["s1"], ["s2"], ["s3"]]⟩ ⟨"tank", 3, 300⟩
    (by simp) (by simp [List.lookup]) (by simp)
  exact ⟨h.1, h.2 (by intro i h1 h2; simp at h1 h2 ⊢; omega) (by decide)
    (by simp +decide [range_skills])⟩

/-- C10: `unlock_crew` is idempotent at the document level.  If the crew
member's name is already in the document's crew list the call returns the
document unchanged; consequently a second call with the same name after a
successful call changes nothing. -/
theorem unlock_crew_idempotent {Item : Type} (CREW : String → Option CrewInfo)
    (XP : Experience) (JOBS : String → Option JobInfo)
    (sv : SaveDocState Item) (crew_name : String) (level : Nat) (flag_as_new : Bool) :
    (∀ crew_info, CREW crew_name = some crew_info →
      (some crew_info.name) ∈ sv.crew_list →
      unlock_crew CREW XP JOBS sv crew_name level flag_as_new = .ok sv)
    ∧ (∀ sv', unlock_crew CREW XP JOBS sv crew_name level flag_as_new = .ok sv' →
        unlock_crew CREW XP JOBS sv' crew_name level flag_as_new = .ok sv') := by
  constructor
  · intro crew_info hC hmem
    simp only [unlock_crew, hC, if_pos hmem]
  · intro sv' h
    cases hC : CREW crew_name with
    | none =>
      simp only [unlock_crew, hC] at h
      exact absurd h (by simp)
    | some crew_info =>
      by_cases hmem : (some crew_info.name) ∈ sv.crew_list
      · simp only [unlock_crew, hC, if_pos hmem] at h
        simp only [Except.ok.injEq] at h
        subst h
        simp only [unlock_crew, hC, if_pos hmem]
      · simp only [unlock_crew, hC, if_neg hmem] at h
        repeat' split at h
        all_goals try (exact Except.noConfusion h)
        all_goals
          simp only [Except.ok.injEq] at h
        all_goals
          subst h
        all_goals
          simp only [unlock_crew, hC]
        all_goals
          rw [if_pos (by simp)]

/-- Witness for C10: a crew member already unlocked in a document. -/
theorem unlock_crew_idempotent_witness :
    unlock_crew
        (fun n => if n = "daisy" then some ⟨"daisy", "Daisy", "boomer", "hat_daisy"⟩ else none)
        ⟨fun l => l * 100, 5⟩
        (fun j => if j = "boomer" then some ⟨[[], [], [], [], [], []]⟩ else none)
        (⟨[], [], [], [], [], [some "daisy"], [], none, [], []⟩ : SaveDocState Unit)
        "daisy" 2 true
      = .ok ⟨[], [], [], [], [], [some "daisy"], [], none, [], []⟩ :=
  (unlock_crew_idempotent
      (fun n => if n = "daisy" then some ⟨"daisy", "Daisy", "boomer", "hat_daisy"⟩ else none)
      ⟨fun l => l * 100, 5⟩
      (fun j => if j = "boomer" then some ⟨[[], [], [], [], [], []]⟩ else none)
      (⟨[], [], [], [], [], [some "daisy"], [], none, [], []⟩ : SaveDocState Unit)
      "daisy" 2 true).1
    ⟨"daisy", "Daisy", "boomer", "hat_daisy"⟩ (by simp) (by simp)

/-- Witness for C7: a record whose first mission-related byte is 1. -/
theorem mission_state_detection_witness :
    parse_missionData [0x4D, 0x73, 0x6E, 0x44, 5, 0, 0, 1, 2, 3, 4, 1, 0] 0 ⟨[], [], 0, 0⟩
      = .error .inMissionSavegame :=
  (mission_state_detection [0x4D, 0x73, 0x6E, 0x44, 5, 0, 0, 1, 2, 3, 4, 1, 0] 0
      ⟨[], [], 0, 0⟩).1.mpr
    ⟨⟨5, none, none, 1, 2, 3, 4, 1, 0⟩, 13, ⟨[], [], 0, 0⟩,
      by simp +decide [parse_missionData_pre, check_chunk_header, read_chunk_header,
        read_uint8, read_string, read_varint, read_varint_go, msnDTag,
        bind, Except.bind, pure, Except.pure],
      by decide⟩

end Swh2save
